import Mathlib

/-!
Verification of the `binstar_client` API client (`src/binstar_client/__init__.py`).

The development shallowly embeds the client: JSON values are an inductive
`Json` whose strings are lists of unicode code points (`List Nat`), the wire
encoding `jencode = b64encode ∘ json.dumps` is executable, HTTP traffic is a
pure oracle `Request → Response`, and each client method is a function from a
client state and an oracle to a result together with the list of requests it
issued.  Python exceptions are an explicit `PyErr` sum.
-/

set_option maxRecDepth 10000
set_option maxHeartbeats 2000000

/-- Unicode code points of a Lean string literal; used to write the model's
byte/character strings (`List Nat`) readably. -/
def strC (s : String) : List Nat := s.data.map Char.toNat

mutual
/-- JSON values as produced by Python's `json` module on the payloads this
client builds: `None`, booleans, integers, strings, lists and dicts.  Strings
are lists of unicode code points; dicts are association lists in insertion
order.  Arrays and objects use the mutually defined spine types `JList` and
`JMembers` so that all recursion over values is structural. -/
inductive Json where
  | null : Json
  | bool (b : Bool) : Json
  | num (n : Int) : Json
  | str (s : List Nat) : Json
  | arr (xs : JList) : Json
  | obj (kvs : JMembers) : Json

/-- Spine of a JSON array. -/
inductive JList where
  | nil : JList
  | cons (hd : Json) (tl : JList) : JList

/-- Spine of a JSON object: keys paired with values, in insertion order. -/
inductive JMembers where
  | nil : JMembers
  | cons (k : List Nat) (v : Json) (tl : JMembers) : JMembers
end

/-- Build a JSON array from a Lean list. -/
def jarrOf : List Json → JList
  | [] => .nil
  | x :: xs => .cons x (jarrOf xs)

/-- Build a JSON object spine from an association list. -/
def jobjOf : List (List Nat × Json) → JMembers
  | [] => .nil
  | (k, v) :: kvs => .cons k v (jobjOf kvs)

/-- JSON array value from a Lean list. -/
def jarr (xs : List Json) : Json := .arr (jarrOf xs)

/-- JSON object value from an association list. -/
def jobj (kvs : List (List Nat × Json)) : Json := .obj (jobjOf kvs)

/-- Little-endian decimal digits, computed with explicit fuel so that the
function is structurally recursive and kernel-evaluable; agrees with
`Nat.digits 10` whenever the fuel is at least the number (see
`natDigitsAux_eq_digits`). -/
def natDigitsAux : Nat → Nat → List Nat
  | 0, _ => []
  | _ + 1, 0 => []
  | fuel + 1, n + 1 => (n + 1) % 10 :: natDigitsAux fuel ((n + 1) / 10)

/-- Decimal digit characters of a natural number, mirroring Python's `str`
of a non-negative `int`. -/
def natDumpChars (n : Nat) : List Nat :=
  if n = 0 then [48] else ((natDigitsAux n n).reverse.map (fun d => d + 48))

/-- Decimal rendering of a Python `int` (possibly negative). -/
def intDumpChars (n : Int) : List Nat :=
  if n < 0 then 45 :: natDumpChars (-n).toNat else natDumpChars n.toNat

/-- Lower-case hex digit character for a value below 16. -/
def hexDigitChar (d : Nat) : Nat := if d < 10 then 48 + d else 87 + d

/-- Four lower-case hex digit characters of a code unit below 0x10000,
as in a JSON `\uXXXX` escape. -/
def hex4 (c : Nat) : List Nat :=
  [hexDigitChar (c / 4096 % 16), hexDigitChar (c / 256 % 16),
   hexDigitChar (c / 16 % 16), hexDigitChar (c % 16)]

/-- Escape of one string character, as `json.dumps` with its default
`ensure_ascii=True` performs it: `"` and `\` and the short control escapes
get two-character escapes, other characters outside printable ASCII are
`\uXXXX`-escaped (as a surrogate pair beyond 0xFFFF), printable ASCII is kept. -/
def escapeChar (c : Nat) : List Nat :=
  if c = 34 then [92, 34]
  else if c = 92 then [92, 92]
  else if c = 8 then [92, 98]
  else if c = 9 then [92, 116]
  else if c = 10 then [92, 110]
  else if c = 12 then [92, 102]
  else if c = 13 then [92, 114]
  else if 32 ≤ c ∧ c ≤ 126 then [c]
  else if c < 65536 then 92 :: 117 :: hex4 c
  else 92 :: 117 :: hex4 (55296 + (c - 65536) / 1024) ++ 92 :: 117 :: hex4 (56320 + (c - 65536) % 1024)

/-- Escaped body of a JSON string. -/
def escapeStr (s : List Nat) : List Nat := s.foldr (fun c acc => escapeChar c ++ acc) []

/-- A JSON string literal: quote, escaped body, quote. -/
def dumpStr (s : List Nat) : List Nat := 34 :: escapeStr s ++ [34]

mutual
/-- Serialisation of a `Json` value exactly as Python's `json.dumps` with its
default separators renders it: `null`/`true`/`false`, decimal integers,
ASCII-escaped strings, `[a, b]` arrays and `{"k": v}` objects. -/
def dumps : Json → List Nat
  | .null => [110, 117, 108, 108]
  | .bool true => [116, 114, 117, 101]
  | .bool false => [102, 97, 108, 115, 101]
  | .num n => intDumpChars n
  | .str s => dumpStr s
  | .arr xs => 91 :: (dumpsElems xs ++ [93])
  | .obj kvs => 123 :: (dumpsMembers kvs ++ [125])

/-- Array elements joined by `", "`. -/
def dumpsElems : JList → List Nat
  | .nil => []
  | .cons x .nil => dumps x
  | .cons x (.cons y tl) => dumps x ++ 44 :: 32 :: dumpsElems (.cons y tl)

/-- Object members `"key": value` joined by `", "`. -/
def dumpsMembers : JMembers → List Nat
  | .nil => []
  | .cons k v .nil => dumpStr k ++ 58 :: 32 :: dumps v
  | .cons k v (.cons k2 v2 tl) => dumpStr k ++ 58 :: 32 :: dumps v ++ 44 :: 32 :: dumpsMembers (.cons k2 v2 tl)
end

/-- A string is well formed when its code points are valid unicode scalar
values (below 0x110000 and not surrogates). -/
def strWF (s : List Nat) : Bool :=
  s.all (fun c => decide (c < 1114112) && !(decide (55296 ≤ c) && decide (c < 57344)))

mutual
/-- A `Json` value is well formed when every string in it is. -/
def jsonWF : Json → Bool
  | .null => true
  | .bool _ => true
  | .num _ => true
  | .str s => strWF s
  | .arr xs => jsonWFElems xs
  | .obj kvs => jsonWFMembers kvs

/-- Well-formedness of the elements of an array. -/
def jsonWFElems : JList → Bool
  | .nil => true
  | .cons x xs => jsonWF x && jsonWFElems xs

/-- Well-formedness of the members of an object. -/
def jsonWFMembers : JMembers → Bool
  | .nil => true
  | .cons k v kvs => strWF k && jsonWF v && jsonWFMembers kvs
end

/-- Base64 alphabet character of a sextet value below 64. -/
def encB64 (d : Nat) : Nat :=
  if d < 26 then 65 + d
  else if d < 52 then 97 + (d - 26)
  else if d < 62 then 48 + (d - 52)
  else if d = 62 then 43
  else 47

/-- Inverse of the base64 alphabet. -/
def decB64 (c : Nat) : Option Nat :=
  if 65 ≤ c ∧ c ≤ 90 then some (c - 65)
  else if 97 ≤ c ∧ c ≤ 122 then some (c - 97 + 26)
  else if 48 ≤ c ∧ c ≤ 57 then some (c - 48 + 52)
  else if c = 43 then some 62
  else if c = 47 then some 63
  else none

/-- Standard base64 encoding of a byte list, as `base64.b64encode`: three
bytes become four alphabet characters, with `=` padding for a final group of
one or two bytes. -/
def b64encode : List Nat → List Nat
  | [] => []
  | [a] => [encB64 (a / 4), encB64 (a % 4 * 16), 61, 61]
  | [a, b] => [encB64 (a / 4), encB64 (a % 4 * 16 + b / 16), encB64 (b % 16 * 4), 61]
  | a :: b :: c :: rest =>
      encB64 (a / 4) :: encB64 (a % 4 * 16 + b / 16) :: encB64 (b % 16 * 4 + c / 64) ::
        encB64 (c % 64) :: b64encode rest

/-- Modelled from the spec: the receiving side's base64 decode.  The server
that decodes the client's payloads is not part of this repository; this is the
standard base64 decoding of four-character groups, with `=` padding allowed
only in the final group. -/
def b64decode : List Nat → Option (List Nat)
  | [] => some []
  | w :: x :: y :: z :: rest =>
    match decB64 w, decB64 x with
    | some s1, some s2 =>
      if y = 61 then
        if z = 61 ∧ rest = [] then some [s1 * 4 + s2 / 16] else none
      else
        match decB64 y with
        | some s3 =>
          if z = 61 then
            if rest = [] then some [s1 * 4 + s2 / 16, s2 % 16 * 16 + s3 / 4] else none
          else
            match decB64 z, b64decode rest with
            | some s4, some bs =>
                some ((s1 * 4 + s2 / 16) :: (s2 % 16 * 16 + s3 / 4) :: (s3 % 4 * 64 + s4) :: bs)
            | _, _ => none
        | none => none
    | _, _ => none
  | _ => none

/-- Hex digit value of a character, accepting both letter cases. -/
def fromHexDigit (c : Nat) : Option Nat :=
  if 48 ≤ c ∧ c ≤ 57 then some (c - 48)
  else if 97 ≤ c ∧ c ≤ 102 then some (c - 87)
  else if 65 ≤ c ∧ c ≤ 70 then some (c - 55)
  else none

/-- Value of four hex digit characters. -/
def fromHex4 (a b c d : Nat) : Option Nat :=
  match fromHexDigit a, fromHexDigit b, fromHexDigit c, fromHexDigit d with
  | some x, some y, some z, some w => some (((x * 16 + y) * 16 + z) * 16 + w)
  | _, _, _, _ => none

/-- Modelled from the spec: decoding of a low-surrogate escape following a
high surrogate `h`, for the receiving side's JSON string scanner.  Expects
`\uXXXX` holding a low surrogate and combines the pair into one code point. -/
def pairLow (h : Nat) : List Nat → Option (Nat × List Nat)
  | e3 :: e4 :: a2 :: b2 :: c3 :: d2 :: rest4 =>
    if e3 = 92 ∧ e4 = 117 then
      (fromHex4 a2 b2 c3 d2).bind (fun l =>
        if 56320 ≤ l ∧ l < 57344 then
          some (65536 + (h - 55296) * 1024 + (l - 56320), rest4)
        else none)
    else none
  | _ => none

/-- Modelled from the spec: decoding of one backslash escape (the input
starts right after the backslash), for the receiving side's JSON string
scanner.  Returns the decoded code point and the unconsumed input. -/
def escDecode : List Nat → Option (Nat × List Nat)
  | [] => none
  | e :: rest2 =>
    if e = 34 then some (34, rest2)
    else if e = 92 then some (92, rest2)
    else if e = 47 then some (47, rest2)
    else if e = 98 then some (8, rest2)
    else if e = 116 then some (9, rest2)
    else if e = 110 then some (10, rest2)
    else if e = 102 then some (12, rest2)
    else if e = 114 then some (13, rest2)
    else if e = 117 then
      match rest2 with
      | a :: b :: c2 :: d :: rest3 =>
        (fromHex4 a b c2 d).bind (fun h =>
          if 55296 ≤ h ∧ h < 56320 then pairLow h rest3
          else if 56320 ≤ h ∧ h < 57344 then none
          else some (h, rest3))
      | _ => none
    else none

/-- Modelled from the spec: the receiving side's JSON string scanner.  Reads
characters up to an unescaped closing quote, decoding backslash escapes via
`escDecode`; the explicit fuel (any value above the input length is enough,
since every step consumes input) keeps the recursion structural. -/
def scanStr : Nat → List Nat → Option (List Nat × List Nat)
  | 0, _ => none
  | _ + 1, [] => none
  | fuel + 1, c :: rest =>
    if c = 34 then some ([], rest)
    else if c = 92 then
      (escDecode rest).bind (fun xr => (scanStr fuel xr.2).map (fun p => (xr.1 :: p.1, p.2)))
    else (scanStr fuel rest).map (fun p => (c :: p.1, p.2))

/-- Longest prefix of decimal digit characters, with the rest of the input. -/
def takeDigits : List Nat → List Nat × List Nat
  | [] => ([], [])
  | c :: rest =>
    if 48 ≤ c ∧ c ≤ 57 then
      (c :: (takeDigits rest).1, (takeDigits rest).2)
    else ([], c :: rest)

/-- Numeric value of a list of decimal digit characters. -/
def digitsVal (ds : List Nat) : Nat := ds.foldl (fun a d => a * 10 + (d - 48)) 0

/-- The input does not begin with a decimal digit character (so a greedy
number scan that stops here is correct). -/
def noDigitHead : List Nat → Bool
  | [] => true
  | c :: _ => !(decide (48 ≤ c) && decide (c ≤ 57))

/-- Modelled from the spec: the receiving side's scanner for an unsigned
decimal integer; fails when no digit is present. -/
def scanNat (l : List Nat) : Option (Nat × List Nat) :=
  match takeDigits l with
  | ([], _) => none
  | (ds, r) => some (digitsVal ds, r)

/-- Consume an expected literal character sequence from the input, returning
the rest; fails on any mismatch. -/
def dropLit : List Nat → List Nat → Option (List Nat)
  | [], l => some l
  | _ :: _, [] => none
  | x :: xs, y :: l => if y = x then dropLit xs l else none

mutual
/-- Modelled from the spec: the receiving side's JSON value scanner
(recursive descent with explicit fuel).  Recognises `null`, `true`, `false`,
integers, strings, arrays and objects in the concrete form `json.dumps`
emits. -/
def scanVal : Nat → List Nat → Option (Json × List Nat)
  | 0, _ => none
  | _ + 1, [] => none
  | fuel + 1, c :: rest =>
    if c = 110 then (dropLit [117, 108, 108] rest).map (fun r => (.null, r))
    else if c = 116 then (dropLit [114, 117, 101] rest).map (fun r => (.bool true, r))
    else if c = 102 then (dropLit [97, 108, 115, 101] rest).map (fun r => (.bool false, r))
    else if c = 34 then (scanStr (rest.length + 1) rest).map (fun p => (.str p.1, p.2))
    else if c = 91 then (scanElems fuel rest).map (fun p => (.arr p.1, p.2))
    else if c = 123 then (scanMembers fuel rest).map (fun p => (.obj p.1, p.2))
    else if c = 45 then (scanNat rest).map (fun p => (.num (-(p.1 : Int)), p.2))
    else if 48 ≤ c ∧ c ≤ 57 then (scanNat (c :: rest)).map (fun p => (.num (p.1 : Int), p.2))
    else none

/-- Modelled from the spec: scanner for the elements of an array after the
opening bracket, expecting `", "` separators and a closing `]`. -/
def scanElems : Nat → List Nat → Option (JList × List Nat)
  | 0, _ => none
  | _ + 1, [] => none
  | fuel + 1, c :: rest =>
    if c = 93 then some (.nil, rest)
    else
      (scanVal fuel (c :: rest)).bind (fun vr =>
        if vr.2.head? = some 93 then some (.cons vr.1 .nil, vr.2.tail)
        else
          (dropLit [44, 32] vr.2).bind (fun r3 =>
            (scanElems fuel r3).map (fun p => (.cons vr.1 p.1, p.2))))

/-- Modelled from the spec: scanner for the members of an object after the
opening brace, expecting `": "` after each key and `", "` separators. -/
def scanMembers : Nat → List Nat → Option (JMembers × List Nat)
  | 0, _ => none
  | _ + 1, [] => none
  | fuel + 1, c :: rest =>
    if c = 125 then some (.nil, rest)
    else if c = 34 then
      (scanStr (rest.length + 1) rest).bind (fun kr =>
        (dropLit [58, 32] kr.2).bind (fun r3 =>
          (scanVal fuel r3).bind (fun vr =>
            if vr.2.head? = some 125 then some (.cons kr.1 vr.1 .nil, vr.2.tail)
            else
              (dropLit [44, 32] vr.2).bind (fun r5 =>
                (scanMembers fuel r5).map (fun p => (.cons kr.1 vr.1 p.1, p.2))))))
    else none
end

/-- Modelled from the spec: the receiving side's `json.loads` — scan one value
and require the whole input to be consumed. -/
def jsonLoads (l : List Nat) : Option Json :=
  match scanVal (l.length + 1) l with
  | some (v, []) => some v
  | _ => none

/-- The client's payload encoding (`jencode` in the source):
`base64.b64encode(json.dumps(payload))`. -/
def jencode (payload : Json) : List Nat := b64encode (dumps payload)

/-- Modelled from the spec: the receiving side's decoding of the payload
convention — base64-decode, then JSON-parse. -/
def jdecode (l : List Nat) : Option Json :=
  match b64decode l with
  | none => none
  | some bs => jsonLoads bs

/-- Lookup in a JSON object, first binding of the key. -/
def jmGet : JMembers → List Nat → Option Json
  | .nil, _ => none
  | .cons k2 v tl, k => if k2 = k then some v else jmGet tl k

/-- Python dict assignment `d[k] = v` on a JSON object: an existing binding is
replaced in place, a new key is appended. -/
def jmSet : JMembers → List Nat → Json → JMembers
  | .nil, k, v => .cons k v .nil
  | .cons k2 v2 tl, k, v => if k2 = k then .cons k v tl else .cons k2 v2 (jmSet tl k v)

/-- Assignment in a string-keyed association list (header maps): an existing
binding is replaced in place, a new key is appended. -/
def setKey {α : Type} : List (List Nat × α) → List Nat → α → List (List Nat × α)
  | [], k, v => [(k, v)]
  | (k2, v2) :: rest, k, v =>
      if k2 = k then (k, v) :: rest else (k2, v2) :: setKey rest k v

/-- Lookup in a string-keyed association list. -/
def getKey {α : Type} : List (List Nat × α) → List Nat → Option α
  | [], _ => none
  | (k2, v) :: rest, k => if k2 = k then some v else getKey rest k

/-- ASCII lower-casing of one character. -/
def lowerChar (c : Nat) : Nat := if 65 ≤ c ∧ c ≤ 90 then c + 32 else c

/-- Case-insensitive lookup, as in the `requests` response-header dictionary. -/
def ciGetKey {α : Type} : List (List Nat × α) → List Nat → Option α
  | [], _ => none
  | (k2, v) :: rest, k =>
      if k2.map lowerChar = k.map lowerChar then some v else ciGetKey rest k

/-- Merge of the session's headers with per-request headers (per-request
entries win on a key collision), as `requests` merges them. -/
def mergeHeaders (base extra : List (List Nat × List Nat)) : List (List Nat × List Nat) :=
  extra.foldl (fun acc kv => setKey acc kv.1 kv.2) base

/-- Python exceptions this client can raise.  `binstarError` is the source's
`BinstarError(msg, status_code)`; the message is a JSON value because
`_check_response` passes the server's `error` field through unchanged. -/
inductive PyErr where
  | binstarError (msg : Json) (status : Nat) : PyErr
  | keyError (key : List Nat) : PyErr
  | typeError : PyErr
  | attributeError : PyErr
  | valueError : PyErr

/-- HTTP method. -/
inductive Method where
  | get : Method
  | post : Method
deriving DecidableEq

/-- Body payload of an outgoing request: nothing, raw bytes (the client's
base64 payloads), or form fields (a dict passed to the `data=` parameter). -/
inductive ReqData where
  | empty : ReqData
  | bytes (bs : List Nat) : ReqData
  | form (j : Json) : ReqData

/-- An outgoing HTTP request as the client builds it.  `viaSession` records
whether it was issued through `self.session` (and therefore carries the
session's headers, already merged into `headers`) or through the bare
`requests` module; `files` is the multipart `files=` argument as a list of
`(field, (filename, content))`. -/
structure Request where
  method : Method
  url : List Nat
  viaSession : Bool
  headers : List (List Nat × List Nat)
  basicAuth : Option (List Nat × List Nat)
  data : ReqData
  files : List (List Nat × List Nat × List Nat)
  allowRedirects : Bool
  stream : Bool

/-- An HTTP response as the environment provides it. -/
structure Response where
  status : Nat
  headers : List (List Nat × List Nat)
  body : List Nat

/-- The network environment: a deterministic assignment of a response to
every request the client might issue. -/
def Oracle : Type := Request → Response

/-- The client's mutable state: base domain, the constructor's token
argument, and the session's header map (of which the model tracks the
entries the client itself sets). -/
structure ClientState where
  domain : List Nat
  token : Option (List Nat)
  sessionHeaders : List (List Nat × List Nat)

/-- Python `obj[key]` on a decoded JSON value: a key lookup on a dict
(raising `KeyError` when absent), a `TypeError` on any non-dict. -/
def pyIndex (j : Json) (k : List Nat) : Except PyErr Json :=
  match j with
  | .obj kvs =>
    match jmGet kvs k with
    | some v => .ok v
    | none => .error (.keyError k)
  | _ => .error .typeError

/-- Python `'%s' % value` rendering of a decoded JSON value, as used for the
`Authorization` header.  Faithful for strings, numbers, booleans and `None`;
for containers (which the server never returns as a token) the JSON rendering
stands in for Python's `str`. -/
def pyFormatVal : Json → List Nat
  | .str s => s
  | .null => strC "None"
  | .bool true => strC "True"
  | .bool false => strC "False"
  | .num n => intDumpChars n
  | .arr xs => dumps (.arr xs)
  | .obj kvs => dumps (.obj kvs)

namespace Binstar

/-- Translation of `Binstar.__init__`: store the domain and token, and when a
token is given set the `Authorization: token <t>` session header. -/
def init (token : Option (List Nat)) (domain : List Nat) : ClientState :=
  ⟨domain, token,
    match token with
    | some t => [(strC "Authorization", strC "token " ++ t)]
    | none => []⟩

/-- A GET issued through the session, with optional extra headers. -/
def sessionGetReq (st : ClientState) (url : List Nat)
    (extraHeaders : List (List Nat × List Nat)) (allowRedirects : Bool) : Request :=
  ⟨.get, url, true, mergeHeaders st.sessionHeaders extraHeaders, none, .empty, [], allowRedirects, false⟩

/-- A GET issued through the session carrying form data (`all_packages`). -/
def sessionGetDataReq (st : ClientState) (url : List Nat) (formData : Json) : Request :=
  ⟨.get, url, true, st.sessionHeaders, none, .form formData, [], true, false⟩

/-- A POST issued through the session with a raw byte body. -/
def sessionPostReq (st : ClientState) (url : List Nat) (body : List Nat) : Request :=
  ⟨.post, url, true, st.sessionHeaders, none, .bytes body, [], true, false⟩

/-- The basic-auth POST `authenticate` issues through the session. -/
def sessionPostAuthReq (st : ClientState) (url : List Nat) (body : List Nat)
    (auth : List Nat × List Nat) : Request :=
  ⟨.post, url, true, st.sessionHeaders, some auth, .bytes body, [], true, false⟩

/-- The bare (sessionless) multipart POST of the object-store transfer. -/
def rawPostReq (url : List Nat) (formData : Json)
    (files : List (List Nat × List Nat × List Nat)) : Request :=
  ⟨.post, url, false, [], none, .form formData, files, true, false⟩

/-- The bare (sessionless) streamed GET of the download redirect. -/
def rawGetReq (url : List Nat) : Request :=
  ⟨.get, url, false, [], none, .empty, [], true, true⟩

/-- Translation of `Binstar._check_response`: a status in `allowed` passes;
otherwise the body is JSON-parsed and the dict's `error` entry (default
`'Undefined error'`, also used when parsing fails) becomes the message of a
`BinstarError` carrying the status code.  A body that parses to a non-dict
JSON value makes the untried `data.get` attribute access raise
`AttributeError` instead. -/
def _check_response (res : Response) (allowed : List Nat) : Except PyErr Unit :=
  if res.status ∈ allowed then .ok ()
  else
    match jsonLoads res.body with
    | none => .error (.binstarError (.str (strC "Undefined error")) res.status)
    | some data =>
      match data with
      | .obj kvs =>
          .error (.binstarError ((jmGet kvs (strC "error")).getD (.str (strC "Undefined error"))) res.status)
      | _ => .error .attributeError

/-- The common tail of every metadata method: validate the response against
the allowed statuses, then return the parsed JSON body (`res.json()`). -/
def requestJson (oracle : Oracle) (req : Request) (allowed : List Nat) : Except PyErr Json :=
  let res := oracle req
  match _check_response res allowed with
  | .error e => .error e
  | .ok _ =>
    match jsonLoads res.body with
    | none => .error .valueError
    | some j => .ok j

/-- The base64-encoded JSON body `{scopes, note, note_url}` of the
authentication request. -/
def authPayload (application : List Nat) (application_url : Option (List Nat))
    (scopes : List (List Nat)) : Json :=
  jobj [(strC "scopes", jarr (scopes.map Json.str)),
        (strC "note", .str application),
        (strC "note_url", match application_url with
          | some u => .str u
          | none => .null)]

/-- The POST to `/authentications` that `authenticate` issues. -/
def authReq (st : ClientState) (username password application : List Nat)
    (application_url : Option (List Nat)) (scopes : List (List Nat)) : Request :=
  sessionPostAuthReq st (st.domain ++ strC "/authentications")
    (b64encode (dumps (authPayload application application_url scopes)))
    (username, password)

/-- Translation of `Binstar.authenticate`: POST the base64-encoded JSON
`{scopes, note, note_url}` to `/authentications` with basic auth, read
`token` from the parsed response, and only then set the session's
`Authorization` header.  The HTTP status is never inspected.  Returns the
result, the client state after the call, and the issued requests. -/
def authenticate (st : ClientState) (oracle : Oracle)
    (username password application : List Nat) (application_url : Option (List Nat))
    (scopes : List (List Nat)) : (Except PyErr Json × ClientState) × List Request :=
  let req := authReq st username password application application_url scopes
  let res := oracle req
  (match jsonLoads res.body with
   | none => (.error .valueError, st)
   | some r =>
     match pyIndex r (strC "token") with
     | .error e => (.error e, st)
     | .ok token =>
       (.ok token,
        ⟨st.domain, st.token,
         setKey st.sessionHeaders (strC "Authorization")
           (strC "token " ++ pyFormatVal token)⟩),
   [req])

/-- Translation of `Binstar.user`. -/
def user (st : ClientState) (oracle : Oracle) (login : Option (List Nat)) :
    Except PyErr Json × List Request :=
  let url := match login with
    | some l => st.domain ++ strC "/user/" ++ l
    | none => st.domain ++ strC "/user"
  let req := sessionGetReq st url [] true
  (requestJson oracle req [200], [req])

/-- Translation of `Binstar.user_packages`. -/
def user_packages (st : ClientState) (oracle : Oracle) (login : Option (List Nat)) :
    Except PyErr Json × List Request :=
  let url := match login with
    | some l => st.domain ++ strC "/packages/" ++ l
    | none => st.domain ++ strC "/packages"
  let req := sessionGetReq st url [] true
  (requestJson oracle req [200], [req])

/-- Translation of `Binstar.package`. -/
def package (st : ClientState) (oracle : Oracle) (login package_name : List Nat) :
    Except PyErr Json × List Request :=
  let req := sessionGetReq st (st.domain ++ strC "/package/" ++ login ++ strC "/" ++ package_name) [] true
  (requestJson oracle req [200], [req])

/-- Translation of `Binstar.all_packages`: a GET carrying the form field
`modified_after` (the argument, or the empty string for a falsy one). -/
def all_packages (st : ClientState) (oracle : Oracle) (modified_after : Option (List Nat)) :
    Except PyErr Json × List Request :=
  let req := sessionGetDataReq st (st.domain ++ strC "/package_listing")
    (jobj [(strC "modified_after", .str (modified_after.getD []))])
  (requestJson oracle req [200], [req])

/-- The value the local name `attrs` holds after `attrs = attrs or {}`:
the caller's dictionary when it is truthy (non-empty), a fresh empty
dictionary otherwise. -/
def attrsOrEmpty (attrs : Option JMembers) : JMembers :=
  match attrs with
  | none => .nil
  | some .nil => .nil
  | some (.cons k v tl) => .cons k v tl

/-- The staged `add_package` payload: the attrs dict (after the in-place
`summary` and `license` assignments) is nested under the `public_attrs`
key, alongside `package_type`, `public` and `host_publicly`. -/
def add_package_payload (package_type summary license license_url public : Json)
    (attrs : Option JMembers) (host_publicly : Json) : Json :=
  let attrs1 := attrsOrEmpty attrs
  let attrs2 := jmSet attrs1 (strC "summary") summary
  let attrs3 := jmSet attrs2 (strC "license")
    (jobj [(strC "name", license), (strC "url", license_url)])
  jobj [(strC "package_type", package_type),
        (strC "public", public),
        (strC "public_attrs", .obj attrs3),
        (strC "host_publicly", host_publicly)]

/-- Translation of `Binstar.add_package`: POST the base64-encoded JSON
payload of `add_package_payload` to `/package/{login}/{package_name}`. -/
def add_package (st : ClientState) (oracle : Oracle) (login package_name : List Nat)
    (package_type summary license license_url public : Json)
    (attrs : Option JMembers) (host_publicly : Json) :
    Except PyErr Json × List Request :=
  let req := sessionPostReq st (st.domain ++ strC "/package/" ++ login ++ strC "/" ++ package_name)
    (jencode (add_package_payload package_type summary license license_url public attrs host_publicly))
  (requestJson oracle req [200], [req])

/-- Caller-visible contents of the `attrs` dictionary after `add_package`
returns.  `attrs = attrs or {}` rebinds the local name to a fresh dictionary
when the caller's dictionary is falsy (absent or empty), so the subsequent
`attrs['summary'] = ...` and `attrs['license'] = ...` assignments mutate the
caller's dictionary exactly when it is non-empty. -/
def add_package_callerAttrs (attrs : Option JMembers) (summary license license_url : Json) :
    Option JMembers :=
  match attrs with
  | none => none
  | some .nil => some .nil
  | some (.cons k v tl) =>
      some (jmSet (jmSet (.cons k v tl) (strC "summary") summary) (strC "license")
        (jobj [(strC "name", license), (strC "url", license_url)]))

/-- Translation of `Binstar.release`. -/
def release (st : ClientState) (oracle : Oracle) (login package_name version : List Nat) :
    Except PyErr Json × List Request :=
  let req := sessionGetReq st
    (st.domain ++ strC "/release/" ++ login ++ strC "/" ++ package_name ++ strC "/" ++ version) [] true
  (requestJson oracle req [200], [req])

/-- Translation of `Binstar.add_release`: POST the base64-encoded JSON
`{requirements, announce, description}`. -/
def add_release (st : ClientState) (oracle : Oracle) (login package_name version : List Nat)
    (requirements announce description : Json) : Except PyErr Json × List Request :=
  let req := sessionPostReq st
    (st.domain ++ strC "/release/" ++ login ++ strC "/" ++ package_name ++ strC "/" ++ version)
    (jencode (jobj [(strC "requirements", requirements),
                    (strC "announce", announce),
                    (strC "description", description)]))
  (requestJson oracle req [200], [req])

/-- The redirect-disabled GET `download` issues, with an `ETag` header when a
hash is supplied. -/
def downloadReq (st : ClientState) (login package_name release basename : List Nat)
    (md5 : Option (List Nat)) : Request :=
  sessionGetReq st
    (st.domain ++ strC "/download/" ++ login ++ strC "/" ++ package_name ++
      strC "/" ++ release ++ strC "/" ++ basename)
    (match md5 with
      | some m => [(strC "ETag", m)]
      | none => [])
    false

/-- Translation of `Binstar.download`: a redirect-disabled GET with an
optional `ETag` header, accepting only 302 and 304; 304 returns no content,
302 follows the `Location` header with a bare streamed GET and returns the
raw bytes. -/
def download (st : ClientState) (oracle : Oracle)
    (login package_name release basename : List Nat) (md5 : Option (List Nat)) :
    Except PyErr (Option (List Nat)) × List Request :=
  let req := downloadReq st login package_name release basename md5
  let res := oracle req
  match _check_response res [302, 304] with
  | .error e => (.error e, [req])
  | .ok _ =>
    if res.status = 304 then (.ok none, [req])
    else if res.status = 302 then
      match ciGetKey res.headers (strC "location") with
      | none => (.error (.keyError (strC "location")), [req])
      | some loc =>
        let req2 := rawGetReq loc
        let res2 := oracle req2
        (.ok (some res2.body), [req, req2])
    else (.ok none, [req])

/-- The staged-upload POST to `/stage/...`. -/
def stageReq (st : ClientState) (login package_name release basename : List Nat)
    (description : Json) (attrs : JMembers) : Request :=
  sessionPostReq st
    (st.domain ++ strC "/stage/" ++ login ++ strC "/" ++ package_name ++
      strC "/" ++ release ++ strC "/" ++ basename)
    (jencode (jobj [(strC "description", description), (strC "attrs", .obj attrs)]))

/-- The object-store transfer POST: the staged form fields verbatim plus the
`file` multipart field holding `(basename, content)`. -/
def s3Req (s3url : List Nat) (s3data : Json) (basename fd : List Nat) : Request :=
  rawPostReq s3url s3data [(strC "file", (basename, fd))]

/-- The commit POST to `/commit/...` carrying `{dist_id}`. -/
def commitReq (st : ClientState) (login package_name release basename : List Nat)
    (distId : Json) : Request :=
  sessionPostReq st
    (st.domain ++ strC "/commit/" ++ login ++ strC "/" ++ package_name ++
      strC "/" ++ release ++ strC "/" ++ basename)
    (jencode (jobj [(strC "dist_id", distId)]))

/-- Translation of `Binstar.upload`: stage (`/stage/...`, status 200), read
`s3_url` and `s3form_data` from the response, transfer (bare multipart POST
of the form fields verbatim plus the `file` field, status 201 exactly or
`BinstarError('Error uploading to s3', status)`), then read `dist_id` and
commit (`/commit/...`, status 200), returning the commit response JSON. -/
def upload (st : ClientState) (oracle : Oracle)
    (login package_name release basename : List Nat) (fd : List Nat)
    (description : Json) (attrs : JMembers) : Except PyErr Json × List Request :=
  let req1 := stageReq st login package_name release basename description attrs
  let res1 := oracle req1
  match _check_response res1 [200] with
  | .error e => (.error e, [req1])
  | .ok _ =>
    match jsonLoads res1.body with
    | none => (.error .valueError, [req1])
    | some stageObj =>
      match pyIndex stageObj (strC "s3_url") with
      | .error e => (.error e, [req1])
      | .ok s3url =>
        match pyIndex stageObj (strC "s3form_data") with
        | .error e => (.error e, [req1])
        | .ok s3data =>
          match s3url with
          | .str u =>
            let req2 := s3Req u s3data basename fd
            let res2 := oracle req2
            if res2.status ≠ 201 then
              (.error (.binstarError (.str (strC "Error uploading to s3")) res2.status), [req1, req2])
            else
              match pyIndex stageObj (strC "dist_id") with
              | .error e => (.error e, [req1, req2])
              | .ok distId =>
                let req3 := commitReq st login package_name release basename distId
                let res3 := oracle req3
                match _check_response res3 [200] with
                | .error e => (.error e, [req1, req2, req3])
                | .ok _ =>
                  match jsonLoads res3.body with
                  | none => (.error .valueError, [req1, req2, req3])
                  | some c => (.ok c, [req1, req2, req3])
          | _ => (.error .typeError, [req1])

/-- One client operation, for reasoning about call sequences on a session. -/
inductive Op where
  | user (login : Option (List Nat)) : Op
  | user_packages (login : Option (List Nat)) : Op
  | package (login package_name : List Nat) : Op
  | all_packages (modified_after : Option (List Nat)) : Op
  | add_package (login package_name : List Nat)
      (package_type summary license license_url public : Json)
      (attrs : Option JMembers) (host_publicly : Json) : Op
  | release (login package_name version : List Nat) : Op
  | add_release (login package_name version : List Nat)
      (requirements announce description : Json) : Op
  | download (login package_name release basename : List Nat) (md5 : Option (List Nat)) : Op
  | upload (login package_name release basename fd : List Nat)
      (description : Json) (attrs : JMembers) : Op
  | authenticate (username password application : List Nat)
      (application_url : Option (List Nat)) (scopes : List (List Nat)) : Op

/-- Whether an operation is the `authenticate` call (the only method that
mutates the session). -/
def Op.isAuthenticate : Op → Bool
  | .authenticate _ _ _ _ _ => true
  | _ => false

/-- Execute one operation: the state after it and the requests it issued.
Only `authenticate` returns a changed state, because it is the only method
whose source mutates the session. -/
def step (st : ClientState) (oracle : Oracle) : Op → ClientState × List Request
  | .user l => (st, (user st oracle l).2)
  | .user_packages l => (st, (user_packages st oracle l).2)
  | .package l n => (st, (package st oracle l n).2)
  | .all_packages m => (st, (all_packages st oracle m).2)
  | .add_package l n pt s lic licu pub a hp => (st, (add_package st oracle l n pt s lic licu pub a hp).2)
  | .release l n v => (st, (release st oracle l n v).2)
  | .add_release l n v r an d => (st, (add_release st oracle l n v r an d).2)
  | .download l n r b m => (st, (download st oracle l n r b m).2)
  | .upload l n r b fd d a => (st, (upload st oracle l n r b fd d a).2)
  | .authenticate u p a au sc =>
      let res := authenticate st oracle u p a au sc
      (res.1.2, res.2)

/-- Execute a sequence of operations, threading the client state and
concatenating the issued requests. -/
def run (st : ClientState) (oracle : Oracle) : List Op → ClientState × List Request
  | [] => (st, [])
  | op :: ops =>
    let first := step st oracle op
    let rest := run first.1 oracle ops
    (rest.1, first.2 ++ rest.2)

end Binstar

/-- Test fixture: a network environment for the upload happy path — the
object store answers 201, the commit URL answers 200 with a JSON body, and
every other URL (the stage URL) answers 200 with a staging descriptor. -/
def uploadOkOracle : Oracle := fun r =>
  if r.url = strC "u" then ⟨201, [], []⟩
  else if r.url = strC "d/commit/l/p/r/b" then ⟨200, [], dumps (jobj [(strC "done", Json.bool true)])⟩
  else ⟨200, [], dumps (jobj [(strC "s3_url", Json.str (strC "u")),
    (strC "s3form_data", jobj [(strC "key", Json.str (strC "K"))]), (strC "dist_id", Json.num 7)])⟩

/-- Test fixture: a network environment where the object store answers 403
and staging succeeds. -/
def uploadFailOracle : Oracle := fun r =>
  if r.url = strC "u" then ⟨403, [], []⟩
  else ⟨200, [], dumps (jobj [(strC "s3_url", Json.str (strC "u")),
    (strC "s3form_data", jobj [(strC "key", Json.str (strC "K"))]), (strC "dist_id", Json.num 7)])⟩

/-- Test fixture: the API answers every session request with a 302 redirect
to `cdn`, and the bare follow-up GET with the file bytes. -/
def dlOracle : Oracle := fun r =>
  if r.viaSession then ⟨302, [(strC "Location", strC "cdn")], []⟩ else ⟨200, [], strC "DATA"⟩

/-- Test fixture: a network environment answering every request with a fixed
status and body. -/
def constOracle (status : Nat) (body : List Nat) : Oracle := fun _ => ⟨status, [], body⟩


/-! ### Decimal digit lemmas -/

/-- The fueled digit function agrees with `Nat.digits 10` when the fuel is
adequate. -/
theorem natDigitsAux_eq_digits : ∀ fuel n : Nat, n ≤ fuel → natDigitsAux fuel n = Nat.digits 10 n := by
  intro fuel
  induction fuel with
  | zero =>
    intro n hn
    have h0 : n = 0 := by omega
    subst h0
    simp [natDigitsAux]
  | succ f ih =>
    intro n hn
    match n with
    | 0 => simp [natDigitsAux]
    | m + 1 =>
      rw [natDigitsAux, ih ((m + 1) / 10) (by omega),
        Nat.digits_def' (by norm_num : (1:Nat) < 10) (Nat.succ_pos m)]

/-- Every character of a decimal rendering is a digit character. -/
theorem natDumpChars_digits (n : Nat) : ∀ d ∈ natDumpChars n, 48 ≤ d ∧ d ≤ 57 := by
  intro d hd
  unfold natDumpChars at hd
  split at hd
  · simp at hd
    omega
  · rw [natDigitsAux_eq_digits n n le_rfl] at hd
    simp only [List.mem_map, List.mem_reverse] at hd
    obtain ⟨x, hx, rfl⟩ := hd
    have := Nat.digits_lt_base (by norm_num) hx
    omega

/-- A decimal rendering is never empty. -/
theorem natDumpChars_ne_nil (n : Nat) : natDumpChars n ≠ [] := by
  unfold natDumpChars
  split
  · simp
  · rw [natDigitsAux_eq_digits n n le_rfl]
    simp [Nat.digits_ne_nil_iff_ne_zero]
    omega

/-- Big-endian digit accumulation computes `Nat.ofDigits` of the reversed
list. -/
theorem foldr_eq_ofDigits : ∀ L : List Nat, L.foldr (fun d acc => acc * 10 + d) 0 = Nat.ofDigits 10 L := by
  intro L
  induction L with
  | nil => simp [Nat.ofDigits]
  | cons d tl ih =>
    rw [List.foldr_cons, ih, Nat.ofDigits_cons]
    ring

/-- The same accumulation applied to digits shifted into characters. -/
theorem foldr_shift_eq_ofDigits : ∀ L : List Nat,
    L.foldr (fun d acc => acc * 10 + (d + 48 - 48)) 0 = Nat.ofDigits 10 L := by
  intro L
  induction L with
  | nil => simp [Nat.ofDigits]
  | cons d tl ih =>
    rw [List.foldr_cons, ih, Nat.ofDigits_cons]
    ring_nf
    omega

/-- Scanning the decimal rendering of `n` recovers `n`. -/
theorem digitsVal_natDumpChars (n : Nat) : digitsVal (natDumpChars n) = n := by
  unfold digitsVal natDumpChars
  split
  · subst n
    decide
  · rw [natDigitsAux_eq_digits n n le_rfl, List.map_reverse, List.foldl_reverse, List.foldr_map]
    rw [foldr_shift_eq_ofDigits]
    exact_mod_cast Nat.ofDigits_digits 10 n

/-- A greedy digit scan over digits followed by a non-digit stops exactly at
the boundary. -/
theorem takeDigits_append : ∀ ds rest : List Nat, (∀ d ∈ ds, 48 ≤ d ∧ d ≤ 57) →
    noDigitHead rest = true → takeDigits (ds ++ rest) = (ds, rest) := by
  intro ds
  induction ds with
  | nil =>
    intro rest _ hrest
    match rest with
    | [] => rfl
    | c :: tl =>
      have hne : ¬(48 ≤ c ∧ c ≤ 57) := by
        intro hcc
        simp [noDigitHead, hcc.1, hcc.2] at hrest
      show takeDigits (c :: tl) = ([], c :: tl)
      simp only [takeDigits, if_neg hne]
  | cons c tl ih =>
    intro rest hds hrest
    have hc := hds c (by simp)
    have ihr := ih rest (fun d hd => hds d (by simp [hd])) hrest
    simp only [List.cons_append, takeDigits, if_pos (And.intro hc.1 hc.2)]
    rw [show tl.append rest = tl ++ rest from rfl, ihr]

/-- Scanning a number at the decimal rendering of `n` succeeds with `n`. -/
theorem scanNat_natDumpChars (n : Nat) (rest : List Nat) (hrest : noDigitHead rest = true) :
    scanNat (natDumpChars n ++ rest) = some (n, rest) := by
  unfold scanNat
  rw [takeDigits_append (natDumpChars n) rest (natDumpChars_digits n) hrest]
  match h : natDumpChars n with
  | [] => exact absurd h (natDumpChars_ne_nil n)
  | d :: ds =>
    simp only []
    rw [← h, digitsVal_natDumpChars]

/-! ### Hex escape lemmas -/

/-- Hex digit characters decode to their value. -/
theorem fromHexDigit_hexDigitChar : ∀ d : Nat, d < 16 → fromHexDigit (hexDigitChar d) = some d := by decide

/-- A four-hex-digit escape decodes to its code unit. -/
theorem fromHex4_hex4 (c : Nat) (h : c < 65536) :
    fromHex4 (hexDigitChar (c / 4096 % 16)) (hexDigitChar (c / 256 % 16))
      (hexDigitChar (c / 16 % 16)) (hexDigitChar (c % 16)) = some c := by
  unfold fromHex4
  rw [fromHexDigit_hexDigitChar _ (by omega), fromHexDigit_hexDigitChar _ (by omega),
    fromHexDigit_hexDigitChar _ (by omega), fromHexDigit_hexDigitChar _ (by omega)]
  simp only [Option.some.injEq]
  omega

/-! ### Base64 lemmas -/

/-- The base64 alphabet decodes to the encoded sextet. -/
theorem decB64_encB64 : ∀ d : Nat, d < 64 → decB64 (encB64 d) = some d := by decide

/-- The base64 alphabet never contains the padding character. -/
theorem encB64_ne_61 : ∀ d : Nat, d < 64 → encB64 d ≠ 61 := by decide

/-- Base64 decoding inverts base64 encoding on byte lists. -/
theorem b64decode_b64encode_aux : ∀ (fuel : Nat) (bs : List Nat), bs.length ≤ fuel →
    (∀ b ∈ bs, b < 256) → b64decode (b64encode bs) = some bs := by
  intro fuel
  induction fuel with
  | zero =>
    intro bs hlen _
    match bs with
    | [] => rfl
    | b :: tl => simp at hlen
  | succ f ih =>
    intro bs hlen hbytes
    match bs with
    | [] => rfl
    | [a] =>
      have ha : a < 256 := hbytes a (by simp)
      have h1 := decB64_encB64 (a / 4) (by omega)
      have h2 := decB64_encB64 (a % 4 * 16) (by omega)
      simp only [b64encode, b64decode, h1, h2, if_pos rfl, and_self, if_true,
        Option.some.injEq, List.cons.injEq, and_true]
      omega
    | [a, b] =>
      have ha : a < 256 := hbytes a (by simp)
      have hb : b < 256 := hbytes b (by simp)
      have h1 := decB64_encB64 (a / 4) (by omega)
      have h2 := decB64_encB64 (a % 4 * 16 + b / 16) (by omega)
      have h3 := decB64_encB64 (b % 16 * 4) (by omega)
      have hne : encB64 (b % 16 * 4) ≠ 61 := encB64_ne_61 (b % 16 * 4) (by omega)
      simp only [b64encode, b64decode, h1, h2, h3, if_neg hne, if_pos rfl, if_true,
        Option.some.injEq, List.cons.injEq, and_true]
      constructor
      · omega
      · omega
    | a :: b :: c :: rest =>
      have ha : a < 256 := hbytes a (by simp)
      have hb : b < 256 := hbytes b (by simp)
      have hc : c < 256 := hbytes c (by simp)
      have h1 := decB64_encB64 (a / 4) (by omega)
      have h2 := decB64_encB64 (a % 4 * 16 + b / 16) (by omega)
      have h3 := decB64_encB64 (b % 16 * 4 + c / 64) (by omega)
      have h4 := decB64_encB64 (c % 64) (by omega)
      have hne3 : encB64 (b % 16 * 4 + c / 64) ≠ 61 := encB64_ne_61 _ (by omega)
      have hne4 : encB64 (c % 64) ≠ 61 := encB64_ne_61 (c % 64) (by omega)
      have ihr := ih rest (by simp at hlen ⊢; omega)
        (fun x hx => hbytes x (by simp [hx]))
      simp only [b64encode, b64decode, h1, h2, h3, h4, if_neg hne3, if_neg hne4, ihr,
        Option.some.injEq, List.cons.injEq]
      exact ⟨by omega, by omega, by omega, by trivial⟩

/-- Base64 decoding inverts base64 encoding on byte lists. -/
theorem b64decode_b64encode (bs : List Nat) (h : ∀ b ∈ bs, b < 256) :
    b64decode (b64encode bs) = some bs :=
  b64decode_b64encode_aux bs.length bs le_rfl h

/-! ### String escape lemmas -/

/-- Escape decoding: escaped quote. -/
theorem escDecode_34 (r : List Nat) : escDecode (34 :: r) = some (34, r) := rfl

/-- Escape decoding: escaped backslash. -/
theorem escDecode_92 (r : List Nat) : escDecode (92 :: r) = some (92, r) := rfl

/-- Escape decoding: escaped backspace. -/
theorem escDecode_98 (r : List Nat) : escDecode (98 :: r) = some (8, r) := rfl

/-- Escape decoding: escaped tab. -/
theorem escDecode_116 (r : List Nat) : escDecode (116 :: r) = some (9, r) := rfl

/-- Escape decoding: escaped newline. -/
theorem escDecode_110 (r : List Nat) : escDecode (110 :: r) = some (10, r) := rfl

/-- Escape decoding: escaped form feed. -/
theorem escDecode_102 (r : List Nat) : escDecode (102 :: r) = some (12, r) := rfl

/-- Escape decoding: escaped carriage return. -/
theorem escDecode_114 (r : List Nat) : escDecode (114 :: r) = some (13, r) := rfl

/-- Escape decoding: a `\uXXXX` escape outside the surrogate ranges. -/
theorem escDecode_u (a b c2 d h : Nat) (r : List Nat) (hhex : fromHex4 a b c2 d = some h)
    (hnothi : ¬(55296 ≤ h ∧ h < 56320)) (hnotlo : ¬(56320 ≤ h ∧ h < 57344)) :
    escDecode (117 :: a :: b :: c2 :: d :: r) = some (h, r) := by
  show (fromHex4 a b c2 d).bind _ = some (h, r)
  rw [hhex]
  show (if 55296 ≤ h ∧ h < 56320 then pairLow h r
    else if 56320 ≤ h ∧ h < 57344 then none else some (h, r)) = some (h, r)
  rw [if_neg hnothi, if_neg hnotlo]

/-- Escape decoding: a surrogate-pair escape. -/
theorem escDecode_pair (a b c2 d a2 b2 c3 d2 h l : Nat) (r : List Nat)
    (hhex1 : fromHex4 a b c2 d = some h) (hhi : 55296 ≤ h ∧ h < 56320)
    (hhex2 : fromHex4 a2 b2 c3 d2 = some l) (hlo : 56320 ≤ l ∧ l < 57344) :
    escDecode (117 :: a :: b :: c2 :: d :: 92 :: 117 :: a2 :: b2 :: c3 :: d2 :: r)
      = some (65536 + (h - 55296) * 1024 + (l - 56320), r) := by
  show (fromHex4 a b c2 d).bind _ = _
  rw [hhex1]
  show (if 55296 ≤ h ∧ h < 56320 then pairLow h (92 :: 117 :: a2 :: b2 :: c3 :: d2 :: r)
    else if 56320 ≤ h ∧ h < 57344 then none
    else some (h, 92 :: 117 :: a2 :: b2 :: c3 :: d2 :: r)) = _
  rw [if_pos hhi]
  show (fromHex4 a2 b2 c3 d2).bind _ = _
  rw [hhex2]
  show (if 56320 ≤ l ∧ l < 57344 then
      some (65536 + (h - 55296) * 1024 + (l - 56320), r) else none) = _
  rw [if_pos hlo]

/-- Scanner step: closing quote. -/
theorem scanStr_quote (fuel : Nat) (r : List Nat) : scanStr (fuel + 1) (34 :: r) = some ([], r) := by
  rw [scanStr]
  rfl

/-- Scanner step: a raw (unescaped) character. -/
theorem scanStr_raw (fuel c : Nat) (h34 : c ≠ 34) (h92 : c ≠ 92) (r : List Nat) :
    scanStr (fuel + 1) (c :: r) = (scanStr fuel r).map (fun p => (c :: p.1, p.2)) := by
  rw [scanStr, if_neg h34, if_neg h92]

/-- Scanner step: a backslash escape, via `escDecode`. -/
theorem scanStr_esc (fuel x : Nat) (r r2 : List Nat) (hesc : escDecode r = some (x, r2)) :
    scanStr (fuel + 1) (92 :: r) = (scanStr fuel r2).map (fun p => (x :: p.1, p.2)) := by
  rw [scanStr, if_neg (by omega : ¬(92 : Nat) = 34), if_pos rfl, hesc]
  rfl

/-- Scanning the escape of one well-formed character consumes exactly that
escape and yields the character, then continues. -/
theorem scanStr_escapeChar (fuel c : Nat) (hlt : c < 1114112) (hsur : ¬(55296 ≤ c ∧ c < 57344))
    (r : List Nat) : scanStr (fuel + 1) (escapeChar c ++ r)
      = (scanStr fuel r).map (fun p => (c :: p.1, p.2)) := by
  by_cases h34 : c = 34
  · subst h34
    exact scanStr_esc fuel 34 _ r (escDecode_34 r)
  by_cases h92 : c = 92
  · subst h92
    exact scanStr_esc fuel 92 _ r (escDecode_92 r)
  by_cases h8 : c = 8
  · subst h8
    exact scanStr_esc fuel 8 _ r (escDecode_98 r)
  by_cases h9 : c = 9
  · subst h9
    exact scanStr_esc fuel 9 _ r (escDecode_116 r)
  by_cases h10 : c = 10
  · subst h10
    exact scanStr_esc fuel 10 _ r (escDecode_110 r)
  by_cases h12 : c = 12
  · subst h12
    exact scanStr_esc fuel 12 _ r (escDecode_102 r)
  by_cases h13 : c = 13
  · subst h13
    exact scanStr_esc fuel 13 _ r (escDecode_114 r)
  by_cases hp : 32 ≤ c ∧ c ≤ 126
  · have he : escapeChar c = [c] := by
      unfold escapeChar
      rw [if_neg h34, if_neg h92, if_neg h8, if_neg h9, if_neg h10, if_neg h12, if_neg h13,
        if_pos hp]
    rw [he, List.cons_append, List.nil_append, scanStr_raw fuel c h34 h92]
  by_cases hbmp : c < 65536
  · have he : escapeChar c = 92 :: 117 :: hex4 c := by
      unfold escapeChar
      rw [if_neg h34, if_neg h92, if_neg h8, if_neg h9, if_neg h10, if_neg h12, if_neg h13,
        if_neg hp, if_pos hbmp]
    rw [he]
    simp only [hex4, List.cons_append, List.nil_append]
    exact scanStr_esc fuel c _ r
      (escDecode_u _ _ _ _ c r (fromHex4_hex4 c hbmp) (by omega) (by omega))
  · have he : escapeChar c = 92 :: 117 :: hex4 (55296 + (c - 65536) / 1024) ++
        92 :: 117 :: hex4 (56320 + (c - 65536) % 1024) := by
      unfold escapeChar
      rw [if_neg h34, if_neg h92, if_neg h8, if_neg h9, if_neg h10, if_neg h12, if_neg h13,
        if_neg hp, if_neg hbmp]
    rw [he]
    simp only [hex4, List.cons_append, List.nil_append, List.append_assoc]
    have hdec := escDecode_pair _ _ _ _ _ _ _ _ (55296 + (c - 65536) / 1024)
      (56320 + (c - 65536) % 1024) r
      (fromHex4_hex4 (55296 + (c - 65536) / 1024) (by omega)) (by omega)
      (fromHex4_hex4 (56320 + (c - 65536) % 1024) (by omega)) (by omega)
    have hval : 65536 + (55296 + (c - 65536) / 1024 - 55296) * 1024 +
        (56320 + (c - 65536) % 1024 - 56320) = c := by omega
    rw [hval] at hdec
    exact scanStr_esc fuel c _ r hdec

/-- Scanning the escaped body of a well-formed string up to the closing quote
recovers the string. -/
theorem scanStr_escapeStr : ∀ (fuel : Nat) (s rest : List Nat), s.length < fuel →
    strWF s = true → scanStr fuel (escapeStr s ++ 34 :: rest) = some (s, rest) := by
  intro fuel
  induction fuel with
  | zero =>
    intro s rest hlen _
    omega
  | succ f ih =>
    intro s rest hlen hwf
    match s with
    | [] => exact scanStr_quote f rest
    | c :: tl =>
      simp only [strWF, List.all_cons, Bool.and_eq_true, decide_eq_true_eq, Bool.not_eq_true',
        Bool.and_eq_false_iff, decide_eq_false_iff_not] at hwf
      have hlt : c < 1114112 := hwf.1.1
      have hsur : ¬(55296 ≤ c ∧ c < 57344) := by
        rcases hwf.1.2 with h | h
        · intro hc
          exact h hc.1
        · intro hc
          exact h hc.2
      have hwft : strWF tl = true := by
        simp only [strWF]
        exact hwf.2
      show scanStr (f + 1) (escapeChar c ++ escapeStr tl ++ 34 :: rest) = some (c :: tl, rest)
      rw [List.append_assoc, scanStr_escapeChar f c hlt hsur,
        ih tl rest (by simp at hlen; omega) hwft]
      rfl


/-! ### Serialised-form head and length lemmas -/

/-- Binding a `some` in `Option`. -/
theorem optBindSome {α β : Type} (a : α) (f : α → Option β) : (some a).bind f = f a := rfl

/-- Mapping over a `some` in `Option`. -/
theorem optMapSome {α β : Type} (a : α) (f : α → β) : (some a).map f = some (f a) := rfl

/-- Consuming an expected literal prefix succeeds and returns the suffix. -/
theorem dropLit_append : ∀ lit r : List Nat, dropLit lit (lit ++ r) = some r := by
  intro lit
  induction lit with
  | nil => intro r; rfl
  | cons x xs ih =>
    intro r
    show (if x = x then dropLit xs (xs ++ r) else none) = some r
    rw [if_pos rfl, ih]

/-- Every character escape is nonempty. -/
theorem escapeChar_length_pos (c : Nat) : 1 ≤ (escapeChar c).length := by
  unfold escapeChar
  split_ifs <;> simp [hex4]

/-- Escaping cannot shorten a string. -/
theorem escapeStr_length_ge : ∀ s : List Nat, s.length ≤ (escapeStr s).length := by
  intro s
  induction s with
  | nil => simp [escapeStr]
  | cons c tl ih =>
    have h := escapeChar_length_pos c
    show (c :: tl).length ≤ (escapeChar c ++ escapeStr tl).length
    simp only [List.length_cons, List.length_append]
    omega

/-- The serialised form of any value begins with one of the scanner's
dispatch characters. -/
theorem dumps_head (v : Json) : ∃ c t, dumps v = c :: t ∧
    (c = 110 ∨ c = 116 ∨ c = 102 ∨ c = 34 ∨ c = 91 ∨ c = 123 ∨ c = 45 ∨ (48 ≤ c ∧ c ≤ 57)) := by
  cases v with
  | null => exact ⟨110, _, rfl, by omega⟩
  | bool b =>
    cases b with
    | true => exact ⟨116, _, rfl, by omega⟩
    | false => exact ⟨102, _, rfl, by omega⟩
  | num n =>
    by_cases hneg : n < 0
    · refine ⟨45, natDumpChars (-n).toNat, ?_, by omega⟩
      show intDumpChars n = _
      rw [intDumpChars, if_pos hneg]
    · match h : natDumpChars n.toNat with
      | [] => exact absurd h (natDumpChars_ne_nil _)
      | d :: ds =>
        have hd := natDumpChars_digits n.toNat d (by rw [h]; simp)
        refine ⟨d, ds, ?_, by omega⟩
        show intDumpChars n = _
        rw [intDumpChars, if_neg hneg, h]
  | str s => exact ⟨34, _, rfl, by omega⟩
  | arr xs => exact ⟨91, _, rfl, by omega⟩
  | obj kvs => exact ⟨123, _, rfl, by omega⟩

/-! ### The scanner reads back what the serialiser wrote -/

/-- Joint statement for values, array elements and object members, by
induction on the scanner's fuel: scanning the serialised form followed by any
suitable rest succeeds and returns exactly the original value. -/
theorem scan_dumps : ∀ fuel : Nat,
    (∀ (v : Json) (rest : List Nat), jsonWF v = true → noDigitHead rest = true →
      (dumps v).length < fuel → scanVal fuel (dumps v ++ rest) = some (v, rest))
    ∧ (∀ (xs : JList) (rest : List Nat), jsonWFElems xs = true →
      (dumpsElems xs).length + 1 < fuel →
      scanElems fuel (dumpsElems xs ++ 93 :: rest) = some (xs, rest))
    ∧ (∀ (kvs : JMembers) (rest : List Nat), jsonWFMembers kvs = true →
      (dumpsMembers kvs).length + 1 < fuel →
      scanMembers fuel (dumpsMembers kvs ++ 125 :: rest) = some (kvs, rest)) := by
  intro fuel
  induction fuel with
  | zero =>
    refine ⟨?_, ?_, ?_⟩
    · intro v rest _ _ hlen
      omega
    · intro xs rest _ hlen
      omega
    · intro kvs rest _ hlen
      omega
  | succ f ih =>
    obtain ⟨ihv, ihe, ihm⟩ := ih
    refine ⟨?_, ?_, ?_⟩
    · intro v rest hwf hnd hlen
      cases v with
      | null =>
        show scanVal (f + 1) (110 :: 117 :: 108 :: 108 :: rest) = some (.null, rest)
        rw [scanVal]
        rfl
      | bool b =>
        cases b with
        | true =>
          show scanVal (f + 1) (116 :: 114 :: 117 :: 101 :: rest) = some (.bool true, rest)
          rw [scanVal]
          rfl
        | false =>
          show scanVal (f + 1) (102 :: 97 :: 108 :: 115 :: 101 :: rest) = some (.bool false, rest)
          rw [scanVal]
          rfl
      | str s =>
        have hwfs : strWF s = true := hwf
        have harr : dumps (.str s) ++ rest = 34 :: (escapeStr s ++ 34 :: rest) := by
          show (34 :: (escapeStr s ++ [34])) ++ rest = _
          simp
        rw [harr, scanVal, if_neg (by decide), if_neg (by decide), if_neg (by decide),
          if_pos rfl]
        rw [scanStr_escapeStr ((escapeStr s ++ 34 :: rest).length + 1) s rest
          (by have := escapeStr_length_ge s; simp only [List.length_append, List.length_cons]; omega)
          hwfs, optMapSome]
      | num n =>
        by_cases hneg : n < 0
        · have harr : dumps (.num n) ++ rest = 45 :: (natDumpChars (-n).toNat ++ rest) := by
            show intDumpChars n ++ rest = _
            rw [intDumpChars, if_pos hneg]
            rfl
          rw [harr, scanVal, if_neg (by decide), if_neg (by decide), if_neg (by decide),
            if_neg (by decide), if_neg (by decide), if_neg (by decide), if_pos rfl]
          rw [scanNat_natDumpChars _ rest hnd, optMapSome]
          have hval : (((( -n).toNat : Nat) : Int)) = -n := by omega
          rw [hval, neg_neg]
        · obtain ⟨d, ds, hds⟩ : ∃ d ds, natDumpChars n.toNat = d :: ds := by
            match h : natDumpChars n.toNat with
            | [] => exact absurd h (natDumpChars_ne_nil _)
            | d :: ds => exact ⟨d, ds, rfl⟩
          have hd := natDumpChars_digits n.toNat d (by rw [hds]; simp)
          have harr : dumps (.num n) ++ rest = d :: (ds ++ rest) := by
            show intDumpChars n ++ rest = _
            rw [intDumpChars, if_neg hneg, hds]
            rfl
          rw [harr, scanVal]
          rw [if_neg (by omega : ¬d = 110), if_neg (by omega : ¬d = 116),
            if_neg (by omega : ¬d = 102), if_neg (by omega : ¬d = 34),
            if_neg (by omega : ¬d = 91), if_neg (by omega : ¬d = 123),
            if_neg (by omega : ¬d = 45), if_pos hd]
          rw [show d :: (ds ++ rest) = natDumpChars n.toNat ++ rest from by rw [hds]; rfl]
          rw [scanNat_natDumpChars _ rest hnd, optMapSome]
          have hval : ((n.toNat : Nat) : Int) = n := by omega
          rw [hval]
      | arr xs =>
        have hwfe : jsonWFElems xs = true := hwf
        have harr : dumps (.arr xs) ++ rest = 91 :: (dumpsElems xs ++ 93 :: rest) := by
          show (91 :: (dumpsElems xs ++ [93])) ++ rest = _
          simp
        have hlen2 : (dumpsElems xs).length + 1 < f := by
          have h : (dumps (.arr xs)).length = (dumpsElems xs).length + 2 := by
            show (91 :: (dumpsElems xs ++ [93])).length = _
            simp
          omega
        rw [harr, scanVal, if_neg (by decide), if_neg (by decide), if_neg (by decide),
          if_neg (by decide), if_pos rfl]
        rw [ihe xs rest hwfe hlen2, optMapSome]
      | obj kvs =>
        have hwfm : jsonWFMembers kvs = true := hwf
        have harr : dumps (.obj kvs) ++ rest = 123 :: (dumpsMembers kvs ++ 125 :: rest) := by
          show (123 :: (dumpsMembers kvs ++ [125])) ++ rest = _
          simp
        have hlen2 : (dumpsMembers kvs).length + 1 < f := by
          have h : (dumps (.obj kvs)).length = (dumpsMembers kvs).length + 2 := by
            show (123 :: (dumpsMembers kvs ++ [125])).length = _
            simp
          omega
        rw [harr, scanVal, if_neg (by decide), if_neg (by decide), if_neg (by decide),
          if_neg (by decide), if_neg (by decide), if_pos rfl]
        rw [ihm kvs rest hwfm hlen2, optMapSome]
    · intro xs rest hwfe hlen
      cases xs with
      | nil =>
        show scanElems (f + 1) (93 :: rest) = some (.nil, rest)
        rw [scanElems]
        rfl
      | cons x tl =>
        obtain ⟨c, t, hct, hcr⟩ := dumps_head x
        have hsplit : (jsonWF x && jsonWFElems tl) = true := hwfe
        have hwfx : jsonWF x = true := ((Bool.and_eq_true _ _).mp hsplit).1
        have hwft : jsonWFElems tl = true := ((Bool.and_eq_true _ _).mp hsplit).2
        cases tl with
        | nil =>
          have hlen2 : (dumps x).length < f := by
            have h : dumpsElems (.cons x .nil) = dumps x := rfl
            rw [h] at hlen
            omega
          have harr : dumpsElems (.cons x .nil) ++ 93 :: rest = c :: (t ++ 93 :: rest) := by
            show dumps x ++ 93 :: rest = _
            rw [hct]
            rfl
          rw [harr, scanElems, if_neg (by omega : ¬c = 93)]
          rw [show (c :: (t ++ 93 :: rest) : List Nat) = dumps x ++ 93 :: rest from by
            rw [hct]; rfl]
          rw [ihv x (93 :: rest) hwfx rfl hlen2]
          simp only [optBindSome]
          rfl
        | cons y tl2 =>
          have hlen2 : (dumps x).length < f ∧ (dumpsElems (.cons y tl2)).length + 1 < f := by
            have h : (dumpsElems (.cons x (.cons y tl2))).length
                = (dumps x).length + (2 + (dumpsElems (.cons y tl2)).length) := by
              show (dumps x ++ 44 :: 32 :: dumpsElems (.cons y tl2)).length = _
              simp only [List.length_append, List.length_cons]
              omega
            rw [h] at hlen
            omega
          have harr : dumpsElems (.cons x (.cons y tl2)) ++ 93 :: rest
              = c :: (t ++ (44 :: 32 :: (dumpsElems (.cons y tl2) ++ 93 :: rest))) := by
            show (dumps x ++ 44 :: 32 :: dumpsElems (.cons y tl2)) ++ 93 :: rest = _
            rw [hct]
            simp
          rw [harr, scanElems, if_neg (by omega : ¬c = 93)]
          rw [show (c :: (t ++ (44 :: 32 :: (dumpsElems (.cons y tl2) ++ 93 :: rest))) : List Nat)
              = dumps x ++ (44 :: 32 :: (dumpsElems (.cons y tl2) ++ 93 :: rest)) from by
            rw [hct]; rfl]
          rw [ihv x (44 :: 32 :: (dumpsElems (.cons y tl2) ++ 93 :: rest)) hwfx rfl hlen2.1]
          simp only [optBindSome]
          rw [if_neg (by simp :
            ¬((44 : Nat) :: 32 :: (dumpsElems (.cons y tl2) ++ 93 :: rest)).head? = some 93)]
          rw [show dropLit [44, 32] (44 :: 32 :: (dumpsElems (.cons y tl2) ++ 93 :: rest))
              = some (dumpsElems (.cons y tl2) ++ 93 :: rest) from rfl]
          simp only [optBindSome]
          rw [ihe (.cons y tl2) rest hwft hlen2.2]
          rfl
    · intro kvs rest hwfm hlen
      cases kvs with
      | nil =>
        show scanMembers (f + 1) (125 :: rest) = some (.nil, rest)
        rw [scanMembers]
        rfl
      | cons k v tl =>
        have hsplit : ((strWF k && jsonWF v) && jsonWFMembers tl) = true := hwfm
        have hwfk : strWF k = true :=
          ((Bool.and_eq_true _ _).mp ((Bool.and_eq_true _ _).mp hsplit).1).1
        have hwfv : jsonWF v = true :=
          ((Bool.and_eq_true _ _).mp ((Bool.and_eq_true _ _).mp hsplit).1).2
        have hwft : jsonWFMembers tl = true := ((Bool.and_eq_true _ _).mp hsplit).2
        have hkey : (dumpStr k).length = (escapeStr k).length + 2 := by
          show (34 :: (escapeStr k ++ [34])).length = _
          simp
        cases tl with
        | nil =>
          have hlen2 : (dumps v).length < f := by
            have h : (dumpsMembers (.cons k v .nil)).length
                = (dumpStr k).length + (2 + (dumps v).length) := by
              show (dumpStr k ++ 58 :: 32 :: dumps v).length = _
              simp only [List.length_append, List.length_cons]
              omega
            rw [h] at hlen
            omega
          have harr : dumpsMembers (.cons k v .nil) ++ 125 :: rest
              = 34 :: (escapeStr k ++ 34 :: (58 :: 32 :: (dumps v ++ 125 :: rest))) := by
            show (dumpStr k ++ 58 :: 32 :: dumps v) ++ 125 :: rest = _
            show ((34 :: (escapeStr k ++ [34])) ++ 58 :: 32 :: dumps v) ++ 125 :: rest = _
            simp
          rw [harr, scanMembers, if_neg (by decide), if_pos rfl]
          rw [scanStr_escapeStr ((escapeStr k ++ 34 :: (58 :: 32 :: (dumps v ++ 125 :: rest))).length + 1)
            k _ (by
              have := escapeStr_length_ge k
              simp only [List.length_append, List.length_cons]
              omega) hwfk]
          simp only [optBindSome]
          rw [show dropLit [58, 32] (58 :: 32 :: (dumps v ++ 125 :: rest))
              = some (dumps v ++ 125 :: rest) from rfl]
          simp only [optBindSome]
          rw [ihv v (125 :: rest) hwfv rfl hlen2]
          simp only [optBindSome]
          rfl
        | cons k2 v2 tl2 =>
          have hlen2 : (dumps v).length < f ∧ (dumpsMembers (.cons k2 v2 tl2)).length + 1 < f := by
            have h : (dumpsMembers (.cons k v (.cons k2 v2 tl2))).length
                = (dumpStr k).length + (2 + ((dumps v).length
                  + (2 + (dumpsMembers (.cons k2 v2 tl2)).length))) := by
              show (dumpStr k ++ 58 :: 32 :: dumps v ++ 44 :: 32
                :: dumpsMembers (.cons k2 v2 tl2)).length = _
              simp only [List.length_append, List.length_cons]
              omega
            rw [h] at hlen
            omega
          have harr : dumpsMembers (.cons k v (.cons k2 v2 tl2)) ++ 125 :: rest
              = 34 :: (escapeStr k ++ 34 :: (58 :: 32 :: (dumps v
                ++ (44 :: 32 :: (dumpsMembers (.cons k2 v2 tl2) ++ 125 :: rest))))) := by
            show (dumpStr k ++ 58 :: 32 :: dumps v ++ 44 :: 32
              :: dumpsMembers (.cons k2 v2 tl2)) ++ 125 :: rest = _
            show ((34 :: (escapeStr k ++ [34])) ++ 58 :: 32 :: dumps v ++ 44 :: 32
              :: dumpsMembers (.cons k2 v2 tl2)) ++ 125 :: rest = _
            simp
          rw [harr, scanMembers, if_neg (by decide), if_pos rfl]
          rw [scanStr_escapeStr ((escapeStr k ++ 34 :: (58 :: 32 :: (dumps v
              ++ (44 :: 32 :: (dumpsMembers (.cons k2 v2 tl2) ++ 125 :: rest))))).length + 1)
            k _ (by
              have := escapeStr_length_ge k
              simp only [List.length_append, List.length_cons]
              omega) hwfk]
          simp only [optBindSome]
          rw [show dropLit [58, 32] (58 :: 32 :: (dumps v
              ++ (44 :: 32 :: (dumpsMembers (.cons k2 v2 tl2) ++ 125 :: rest))))
              = some (dumps v ++ (44 :: 32 :: (dumpsMembers (.cons k2 v2 tl2) ++ 125 :: rest)))
              from rfl]
          simp only [optBindSome]
          rw [ihv v (44 :: 32 :: (dumpsMembers (.cons k2 v2 tl2) ++ 125 :: rest)) hwfv rfl hlen2.1]
          simp only [optBindSome]
          rw [if_neg (by simp :
            ¬((44 : Nat) :: 32 :: (dumpsMembers (.cons k2 v2 tl2) ++ 125 :: rest)).head? = some 125)]
          rw [show dropLit [44, 32] (44 :: 32 :: (dumpsMembers (.cons k2 v2 tl2) ++ 125 :: rest))
              = some (dumpsMembers (.cons k2 v2 tl2) ++ 125 :: rest) from rfl]
          simp only [optBindSome]
          rw [ihm (.cons k2 v2 tl2) rest hwft hlen2.2]
          rfl

/-! ### The serialised form is ASCII -/

/-- Hex digit characters are ASCII. -/
theorem hexDigitChar_le (d : Nat) (h : d < 16) : hexDigitChar d ≤ 102 := by
  unfold hexDigitChar
  split_ifs <;> omega

/-- All four characters of a hex escape are ASCII. -/
theorem hex4_le (c : Nat) : ∀ x ∈ hex4 c, x ≤ 102 := by
  intro x hx
  simp only [hex4, List.mem_cons, List.not_mem_nil, or_false] at hx
  rcases hx with rfl | rfl | rfl | rfl <;> exact hexDigitChar_le _ (by omega)

/-- Every character an escape emits is ASCII. -/
theorem escapeChar_le (c : Nat) : ∀ x ∈ escapeChar c, x ≤ 126 := by
  intro x hx
  unfold escapeChar at hx
  split_ifs at hx with h1 h2 h3 h4 h5 h6 h7 h8 h9
  · simp only [List.mem_cons, List.not_mem_nil, or_false] at hx
    omega
  · simp only [List.mem_cons, List.not_mem_nil, or_false] at hx
    omega
  · simp only [List.mem_cons, List.not_mem_nil, or_false] at hx
    omega
  · simp only [List.mem_cons, List.not_mem_nil, or_false] at hx
    omega
  · simp only [List.mem_cons, List.not_mem_nil, or_false] at hx
    omega
  · simp only [List.mem_cons, List.not_mem_nil, or_false] at hx
    omega
  · simp only [List.mem_cons, List.not_mem_nil, or_false] at hx
    omega
  · simp only [List.mem_cons, List.not_mem_nil, or_false] at hx
    omega
  · simp only [List.mem_cons] at hx
    rcases hx with rfl | rfl | hx
    · omega
    · omega
    · have := hex4_le c x hx
      omega
  · simp only [List.mem_cons, List.mem_append] at hx
    rcases hx with (rfl | rfl | hx) | (rfl | rfl | hx)
    · omega
    · omega
    · have := hex4_le _ x hx
      omega
    · omega
    · omega
    · have := hex4_le _ x hx
      omega

/-- Every character of an escaped string body is ASCII. -/
theorem escapeStr_le : ∀ s : List Nat, ∀ x ∈ escapeStr s, x ≤ 126 := by
  intro s
  induction s with
  | nil => intro x hx; simp [escapeStr] at hx
  | cons c tl ih =>
    intro x hx
    have hx2 : x ∈ escapeChar c ++ escapeStr tl := hx
    rw [List.mem_append] at hx2
    rcases hx2 with h | h
    · exact escapeChar_le c x h
    · exact ih x h

/-- Every character of a string literal is ASCII. -/
theorem dumpStr_le (s : List Nat) : ∀ x ∈ dumpStr s, x ≤ 126 := by
  intro x hx
  simp only [dumpStr, List.mem_cons, List.mem_append, List.not_mem_nil, or_false] at hx
  rcases hx with (rfl | h) | rfl
  · omega
  · exact escapeStr_le s x h
  · omega

/-- Every character of a number rendering is ASCII. -/
theorem intDumpChars_le (n : Int) : ∀ x ∈ intDumpChars n, x ≤ 126 := by
  intro x hx
  unfold intDumpChars at hx
  split_ifs at hx
  · simp only [List.mem_cons] at hx
    rcases hx with rfl | hx
    · omega
    · have := natDumpChars_digits _ x hx
      omega
  · have := natDumpChars_digits _ x hx
    omega

/-- Every character `dumps` emits is ASCII (joint statement over values,
elements and members by fuel on the output length). -/
theorem dumps_le : ∀ fuel : Nat,
    (∀ v : Json, (dumps v).length < fuel → ∀ x ∈ dumps v, x ≤ 126)
    ∧ (∀ xs : JList, (dumpsElems xs).length + 1 < fuel → ∀ x ∈ dumpsElems xs, x ≤ 126)
    ∧ (∀ kvs : JMembers, (dumpsMembers kvs).length + 1 < fuel → ∀ x ∈ dumpsMembers kvs, x ≤ 126) := by
  intro fuel
  induction fuel with
  | zero =>
    refine ⟨?_, ?_, ?_⟩ <;> intro a hlen <;> omega
  | succ f ih =>
    obtain ⟨ihv, ihe, ihm⟩ := ih
    refine ⟨?_, ?_, ?_⟩
    · intro v hlen x hx
      cases v with
      | null =>
        simp only [dumps, List.mem_cons, List.not_mem_nil, or_false] at hx
        omega
      | bool b =>
        cases b <;> simp only [dumps, List.mem_cons, List.not_mem_nil, or_false] at hx <;> omega
      | num n => exact intDumpChars_le n x hx
      | str s => exact dumpStr_le s x hx
      | arr xs =>
        have hlen2 : (dumpsElems xs).length + 1 < f := by
          have h : (dumps (.arr xs)).length = (dumpsElems xs).length + 2 := by
            show (91 :: (dumpsElems xs ++ [93])).length = _
            simp
          omega
        have hx2 : x ∈ 91 :: (dumpsElems xs ++ [93]) := hx
        simp only [List.mem_cons, List.mem_append, List.not_mem_nil, or_false] at hx2
        rcases hx2 with rfl | h | rfl
        · omega
        · exact ihe xs hlen2 x h
        · omega
      | obj kvs =>
        have hlen2 : (dumpsMembers kvs).length + 1 < f := by
          have h : (dumps (.obj kvs)).length = (dumpsMembers kvs).length + 2 := by
            show (123 :: (dumpsMembers kvs ++ [125])).length = _
            simp
          omega
        have hx2 : x ∈ 123 :: (dumpsMembers kvs ++ [125]) := hx
        simp only [List.mem_cons, List.mem_append, List.not_mem_nil, or_false] at hx2
        rcases hx2 with rfl | h | rfl
        · omega
        · exact ihm kvs hlen2 x h
        · omega
    · intro xs hlen x hx
      cases xs with
      | nil => simp [dumpsElems] at hx
      | cons v tl =>
        cases tl with
        | nil =>
          have h : dumpsElems (.cons v .nil) = dumps v := rfl
          rw [h] at hx hlen
          exact ihv v (by omega) x hx
        | cons y tl2 =>
          have h : (dumpsElems (.cons v (.cons y tl2))).length
              = (dumps v).length + (2 + (dumpsElems (.cons y tl2)).length) := by
            show (dumps v ++ 44 :: 32 :: dumpsElems (.cons y tl2)).length = _
            simp only [List.length_append, List.length_cons]
            omega
          have hx2 : x ∈ dumps v ++ 44 :: 32 :: dumpsElems (.cons y tl2) := hx
          simp only [List.mem_append, List.mem_cons] at hx2
          rcases hx2 with hm | rfl | rfl | hm
          · exact ihv v (by omega) x hm
          · omega
          · omega
          · exact ihe (.cons y tl2) (by omega) x hm
    · intro kvs hlen x hx
      cases kvs with
      | nil => simp [dumpsMembers] at hx
      | cons k v tl =>
        cases tl with
        | nil =>
          have h : (dumpsMembers (.cons k v .nil)).length
              = (dumpStr k).length + (2 + (dumps v).length) := by
            show (dumpStr k ++ 58 :: 32 :: dumps v).length = _
            simp only [List.length_append, List.length_cons]
            omega
          have hx2 : x ∈ dumpStr k ++ 58 :: 32 :: dumps v := hx
          simp only [List.mem_append, List.mem_cons] at hx2
          rcases hx2 with hm | rfl | rfl | hm
          · exact dumpStr_le k x hm
          · omega
          · omega
          · exact ihv v (by omega) x hm
        | cons k2 v2 tl2 =>
          have h : (dumpsMembers (.cons k v (.cons k2 v2 tl2))).length
              = (dumpStr k).length + (2 + ((dumps v).length
                + (2 + (dumpsMembers (.cons k2 v2 tl2)).length))) := by
            show (dumpStr k ++ 58 :: 32 :: dumps v ++ 44 :: 32
              :: dumpsMembers (.cons k2 v2 tl2)).length = _
            simp only [List.length_append, List.length_cons]
            omega
          have hx2 : x ∈ dumpStr k ++ 58 :: 32 :: dumps v
              ++ 44 :: 32 :: dumpsMembers (.cons k2 v2 tl2) := hx
          simp only [List.mem_append, List.mem_cons] at hx2
          rcases hx2 with (hm | rfl | rfl | hm) | (rfl | rfl | hm)
          · exact dumpStr_le k x hm
          · omega
          · omega
          · exact ihv v (by omega) x hm
          · omega
          · omega
          · exact ihm (.cons k2 v2 tl2) (by omega) x hm

/-- Every character `dumps` emits is a byte. -/
theorem dumps_lt_256 (v : Json) : ∀ x ∈ dumps v, x < 256 := by
  intro x hx
  have := (dumps_le ((dumps v).length + 1)).1 v (by omega) x hx
  omega

/-! ### The round trip -/

/-- Parsing the serialised form of a well-formed value recovers the value. -/
theorem jsonLoads_dumps (v : Json) (h : jsonWF v = true) : jsonLoads (dumps v) = some v := by
  unfold jsonLoads
  have hmain := (scan_dumps ((dumps v).length + 1)).1 v [] h rfl (by omega)
  rw [List.append_nil] at hmain
  rw [hmain]

/-! ### Association list and header map lemmas -/

/-- Looking up the key just set returns the new value. -/
theorem getKey_setKey_same {α : Type} : ∀ (l : List (List Nat × α)) (k : List Nat) (v : α),
    getKey (setKey l k v) k = some v := by
  intro l k v
  induction l with
  | nil => simp [setKey, getKey]
  | cons kv tl ih =>
    show getKey (if kv.1 = k then (k, v) :: tl else kv :: setKey tl k v) k = some v
    split_ifs with h
    · simp [getKey]
    · show (if kv.1 = k then some kv.2 else getKey (setKey tl k v) k) = some v
      rw [if_neg h, ih]

/-- Setting one key does not change lookups of another. -/
theorem getKey_setKey_other {α : Type} : ∀ (l : List (List Nat × α)) (k k2 : List Nat) (v : α),
    k2 ≠ k → getKey (setKey l k2 v) k = getKey l k := by
  intro l k k2 v hne
  induction l with
  | nil => simp [setKey, getKey, hne]
  | cons kv tl ih =>
    show getKey (if kv.1 = k2 then (k2, v) :: tl else kv :: setKey tl k2 v) k = _
    split_ifs with h
    · show (if k2 = k then some v else getKey tl k) = (if kv.1 = k then some kv.2 else getKey tl k)
      rw [if_neg hne, if_neg (by rw [h]; exact hne)]
    · show (if kv.1 = k then some kv.2 else getKey (setKey tl k2 v) k)
        = (if kv.1 = k then some kv.2 else getKey tl k)
      split_ifs with h2
      · rfl
      · exact ih

/-- Looking up the key just assigned in a JSON dict returns the new value. -/
theorem jmGet_jmSet_same : ∀ (d : JMembers) (k : List Nat) (v : Json),
    jmGet (jmSet d k v) k = some v
  | .nil, k, v => by simp [jmSet, jmGet]
  | .cons k2 v2 tl, k, v => by
    show jmGet (if k2 = k then .cons k v tl else .cons k2 v2 (jmSet tl k v)) k = some v
    split_ifs with h
    · simp [jmGet]
    · show (if k2 = k then some v2 else jmGet (jmSet tl k v) k) = some v
      rw [if_neg h, jmGet_jmSet_same tl k v]

/-- Assigning one key does not change lookups of another in a JSON dict. -/
theorem jmGet_jmSet_other : ∀ (d : JMembers) (k k2 : List Nat) (v : Json), k2 ≠ k →
    jmGet (jmSet d k2 v) k = jmGet d k
  | .nil, k, k2, v, hne => by simp [jmSet, jmGet, hne]
  | .cons k3 v3 tl, k, k2, v, hne => by
    show jmGet (if k3 = k2 then .cons k2 v tl else .cons k3 v3 (jmSet tl k2 v)) k = _
    split_ifs with h
    · show (if k2 = k then some v else jmGet tl k) = (if k3 = k then some v3 else jmGet tl k)
      rw [if_neg hne, if_neg (by rw [h]; exact hne)]
    · show (if k3 = k then some v3 else jmGet (jmSet tl k2 v) k)
        = (if k3 = k then some v3 else jmGet tl k)
      split_ifs with h2
      · rfl
      · exact jmGet_jmSet_other tl k k2 v hne

/-- A response whose status is allowed passes the validator. -/
theorem check_response_ok (res : Response) (allowed : List Nat) (h : res.status ∈ allowed) :
    Binstar._check_response res allowed = .ok () := by
  unfold Binstar._check_response
  rw [if_pos h]

/-! ### Claim C6: the response validator -/

/-- C6 (counterexample): the claim says a disallowed status always raises
`ApiError` (`BinstarError`) with the `error` field or the generic message.
But a body that parses to *non-object* JSON (here the body `1`) makes
`data.get('error', ...)` an attribute access on a non-dict, so the code
raises `AttributeError`, not `BinstarError`. -/
theorem C6_counterexample :
    Binstar._check_response ⟨500, [], strC "1"⟩ [200] = .error .attributeError ∧
      ∀ msg status, (Except.error PyErr.attributeError : Except PyErr Unit)
        ≠ .error (.binstarError msg status) := by
  constructor
  · rfl
  · intro msg status h
    injection h with h2
    cases h2

/-- C6 (amended): `_check_response` returns success exactly when the status
is allowed; otherwise it raises `BinstarError` with the status code and the
body's `error` field (or `'Undefined error'` when the body is unparseable or
the field is absent) — except that a body parsing to non-object JSON raises
`AttributeError` instead. -/
theorem C6_check_response_cases (res : Response) (allowed : List Nat) :
    (res.status ∈ allowed → Binstar._check_response res allowed = .ok ())
    ∧ (res.status ∉ allowed → jsonLoads res.body = none →
        Binstar._check_response res allowed
          = .error (.binstarError (.str (strC "Undefined error")) res.status))
    ∧ (∀ kvs, res.status ∉ allowed → jsonLoads res.body = some (.obj kvs) →
        Binstar._check_response res allowed
          = .error (.binstarError ((jmGet kvs (strC "error")).getD (.str (strC "Undefined error")))
              res.status))
    ∧ (∀ j, res.status ∉ allowed → jsonLoads res.body = some j → (∀ kvs, j ≠ .obj kvs) →
        Binstar._check_response res allowed = .error .attributeError) := by
  refine ⟨?_, ?_, ?_, ?_⟩
  · intro h
    unfold Binstar._check_response
    rw [if_pos h]
  · intro h hj
    unfold Binstar._check_response
    rw [if_neg h, hj]
  · intro kvs h hj
    unfold Binstar._check_response
    rw [if_neg h, hj]
  · intro j h hj hnotobj
    unfold Binstar._check_response
    rw [if_neg h, hj]
    match j, hnotobj with
    | .null, _ => rfl
    | .bool b, _ => rfl
    | .num n, _ => rfl
    | .str s, _ => rfl
    | .arr xs, _ => rfl
    | .obj kvs, hno => exact absurd rfl (hno kvs)

/-- C6 (witness): a 500 response with body `{"error": "boom"}` against
allowed `[200]` raises `BinstarError` with message `"boom"` and status 500. -/
theorem C6_witness :
    Binstar._check_response ⟨500, [], dumps (jobj [(strC "error", Json.str (strC "boom"))])⟩ [200]
      = .error (.binstarError (.str (strC "boom")) 500) := by
  rw [(C6_check_response_cases ⟨500, [], dumps (jobj [(strC "error", Json.str (strC "boom"))])⟩
    [200]).2.2.1 (jobjOf [(strC "error", Json.str (strC "boom"))]) (by decide) rfl]
  rfl

/-- Decoding the wire encoding of a well-formed payload recovers it. -/
theorem jdecode_jencode (payload : Json) (h : jsonWF payload = true) :
    jdecode (jencode payload) = some payload := by
  unfold jdecode jencode
  rw [b64decode_b64encode (dumps payload) (dumps_lt_256 payload)]
  show jsonLoads (dumps payload) = some payload
  exact jsonLoads_dumps payload h

/-! ### Claim C8: the wire-format round trip -/

/-- C8: decoding (base64-decode, then JSON-parse) the client's payload
encoding `jencode` (JSON-serialise, then base64-encode) reproduces the
original payload exactly, for every payload whose strings are valid unicode
(which is what JSON-serialisability means for the model). -/
theorem C8_jencode_roundtrip (payload : Json) (h : jsonWF payload = true) :
    jdecode (jencode payload) = some payload :=
  jdecode_jencode payload h

/-- C8 (witness): the round trip evaluated on a concrete payload. -/
theorem C8_witness :
    jsonWF (jobj [(strC "a", Json.num (-3)), (strC "b", jarr [Json.null, Json.str (strC "x")])]) = true
    ∧ jdecode (jencode (jobj [(strC "a", Json.num (-3)), (strC "b", jarr [Json.null, Json.str (strC "x")])]))
      = some (jobj [(strC "a", Json.num (-3)), (strC "b", jarr [Json.null, Json.str (strC "x")])]) :=
  ⟨rfl, C8_jencode_roundtrip (jobj [(strC "a", Json.num (-3)), (strC "b", jarr [Json.null, Json.str (strC "x")])]) rfl⟩

/-! ### Claim C3: download -/

/-- C3 (counterexample): the claim says any status outside {302, 304}
(including 200) makes `download` raise `ApiError`.  But a 200 response whose
body parses to non-object JSON (here `1`) propagates the validator's
`AttributeError` instead of a `BinstarError`. -/
theorem C3_counterexample :
    (Binstar.download (Binstar.init none (strC "d")) (fun _ => ⟨200, [], strC "1"⟩)
      (strC "l") (strC "p") (strC "r") (strC "b") none).1 = .error .attributeError ∧
    ∀ msg status, (Except.error PyErr.attributeError : Except PyErr (Option (List Nat)))
      ≠ .error (.binstarError msg status) := by
  constructor
  · rfl
  · intro msg status h
    injection h with h2
    cases h2

/-- C3 (amended): a 304 response returns no content with no further request,
whatever the body; a 302 response issues one more bare streamed GET to the
(case-insensitively looked up) `Location` header URL and returns that
response's bytes; any other status propagates the validator's error — which
is `BinstarError` except when the body parses to non-object JSON, where it
is `AttributeError` (see the validator's cases). -/
theorem C3_download (st : ClientState) (oracle : Oracle)
    (login package_name release basename : List Nat) (md5 : Option (List Nat)) :
    ((oracle (Binstar.downloadReq st login package_name release basename md5)).status = 304 →
      Binstar.download st oracle login package_name release basename md5
        = (.ok none, [Binstar.downloadReq st login package_name release basename md5]))
    ∧ (∀ loc, (oracle (Binstar.downloadReq st login package_name release basename md5)).status = 302 →
        ciGetKey (oracle (Binstar.downloadReq st login package_name release basename md5)).headers
          (strC "location") = some loc →
        Binstar.download st oracle login package_name release basename md5
          = (.ok (some (oracle (Binstar.rawGetReq loc)).body),
             [Binstar.downloadReq st login package_name release basename md5, Binstar.rawGetReq loc])
        ∧ (Binstar.rawGetReq loc).viaSession = false ∧ (Binstar.rawGetReq loc).stream = true)
    ∧ (∀ e, Binstar._check_response (oracle (Binstar.downloadReq st login package_name release basename md5))
          [302, 304] = .error e →
        Binstar.download st oracle login package_name release basename md5
          = (.error e, [Binstar.downloadReq st login package_name release basename md5])) := by
  refine ⟨?_, ?_, ?_⟩
  · intro h304
    simp only [Binstar.download]
    rw [check_response_ok _ [302, 304] (by rw [h304]; decide)]
    simp only []
    rw [if_pos h304]
  · intro loc h302 hloc
    refine ⟨?_, rfl, rfl⟩
    simp only [Binstar.download]
    rw [check_response_ok _ [302, 304] (by rw [h302]; decide)]
    simp only []
    rw [if_neg (by omega : ¬(oracle (Binstar.downloadReq st login package_name release basename md5)).status = 304),
      if_pos h302, hloc]
  · intro e herr
    simp only [Binstar.download]
    rw [herr]

/-- C3 (witness): the 302 clause evaluated in a concrete environment — the
returned stream is exactly the bytes the `Location` URL serves. -/
theorem C3_witness :
    Binstar.download (Binstar.init none (strC "d")) dlOracle
      (strC "l") (strC "p") (strC "r") (strC "b") none
      = (.ok (some (strC "DATA")),
         [Binstar.downloadReq (Binstar.init none (strC "d")) (strC "l") (strC "p") (strC "r") (strC "b") none,
          Binstar.rawGetReq (strC "cdn")]) := by
  have h := (C3_download (Binstar.init none (strC "d")) dlOracle
    (strC "l") (strC "p") (strC "r") (strC "b") none).2.1 (strC "cdn") rfl rfl
  exact h.1

/-! ### Claims C4 and C10: authenticate -/

/-- Case analysis of `authenticate`: an unparseable body raises the JSON
decode error, a body without a readable `token` entry raises that lookup's
error with the session untouched, and any body with a `token` entry succeeds
and installs the header — the HTTP status is never consulted. -/
theorem authenticate_cases (st : ClientState) (oracle : Oracle)
    (username password application : List Nat) (application_url : Option (List Nat))
    (scopes : List (List Nat)) :
    (jsonLoads (oracle (Binstar.authReq st username password application application_url scopes)).body = none →
      Binstar.authenticate st oracle username password application application_url scopes
        = ((.error .valueError, st),
           [Binstar.authReq st username password application application_url scopes]))
    ∧ (∀ body e,
        jsonLoads (oracle (Binstar.authReq st username password application application_url scopes)).body
          = some body →
        pyIndex body (strC "token") = .error e →
        Binstar.authenticate st oracle username password application application_url scopes
          = ((.error e, st),
             [Binstar.authReq st username password application application_url scopes]))
    ∧ (∀ body tok,
        jsonLoads (oracle (Binstar.authReq st username password application application_url scopes)).body
          = some body →
        pyIndex body (strC "token") = .ok tok →
        Binstar.authenticate st oracle username password application application_url scopes
          = ((.ok tok,
              ⟨st.domain, st.token,
               setKey st.sessionHeaders (strC "Authorization") (strC "token " ++ pyFormatVal tok)⟩),
             [Binstar.authReq st username password application application_url scopes])) := by
  refine ⟨?_, ?_, ?_⟩
  · intro hj
    simp only [Binstar.authenticate]
    rw [hj]
  · intro body e hj htok
    simp only [Binstar.authenticate]
    rw [hj]
    simp only []
    rw [htok]
  · intro body tok hj htok
    simp only [Binstar.authenticate]
    rw [hj]
    simp only []
    rw [htok]

/-- C4 (counterexample): the claim says a non-200 status makes `authenticate`
fail with `ApiError`.  But the code never inspects the status: a 500 response
whose body contains a `token` entry succeeds and returns the token. -/
theorem C4_counterexample :
    (Binstar.authenticate (Binstar.init none (strC "d"))
      (constOracle 500 (dumps (jobj [(strC "token", Json.str (strC "T"))])))
      (strC "u") (strC "pw") (strC "app") none [strC "package"]).1.1
      = .ok (Json.str (strC "T")) ∧
    ∀ e : PyErr, (Except.ok (Json.str (strC "T")) : Except PyErr Json) ≠ .error e :=
  ⟨rfl, fun _ h => Except.noConfusion h⟩

/-- C4 (amended): `authenticate` never checks the HTTP status.  It fails with
the JSON decode error when the body is unparseable, and with a key-lookup
error (`KeyError`, not `ApiError`) when the parsed body is a dict without
`token`; any response whose parsed body yields a `token` entry succeeds,
whatever the status. -/
theorem C4_authenticate (st : ClientState) (oracle : Oracle)
    (username password application : List Nat) (application_url : Option (List Nat))
    (scopes : List (List Nat)) :
    (jsonLoads (oracle (Binstar.authReq st username password application application_url scopes)).body = none →
      (Binstar.authenticate st oracle username password application application_url scopes).1.1
        = .error .valueError)
    ∧ (∀ kvs,
        jsonLoads (oracle (Binstar.authReq st username password application application_url scopes)).body
          = some (.obj kvs) →
        jmGet kvs (strC "token") = none →
        (Binstar.authenticate st oracle username password application application_url scopes).1.1
          = .error (.keyError (strC "token")))
    ∧ (∀ body tok,
        jsonLoads (oracle (Binstar.authReq st username password application application_url scopes)).body
          = some body →
        pyIndex body (strC "token") = .ok tok →
        (Binstar.authenticate st oracle username password application application_url scopes).1.1
          = .ok tok) := by
  refine ⟨?_, ?_, ?_⟩
  · intro hj
    rw [(authenticate_cases st oracle username password application application_url scopes).1 hj]
  · intro kvs hj hno
    have hidx : pyIndex (.obj kvs) (strC "token") = .error (.keyError (strC "token")) := by
      unfold pyIndex
      simp only []
      rw [hno]
    rw [(authenticate_cases st oracle username password application application_url scopes).2.1
      (.obj kvs) _ hj hidx]
  · intro body tok hj htok
    rw [(authenticate_cases st oracle username password application application_url scopes).2.2
      body tok hj htok]

/-- C4 (witness): a parsed dict without `token` produces the key-lookup
error. -/
theorem C4_witness :
    (Binstar.authenticate (Binstar.init none (strC "d")) (constOracle 200 (dumps (jobj [])))
      (strC "u") (strC "pw") (strC "app") none [strC "package"]).1.1
      = .error (.keyError (strC "token")) :=
  (C4_authenticate (Binstar.init none (strC "d")) (constOracle 200 (dumps (jobj [])))
    (strC "u") (strC "pw") (strC "app") none [strC "package"]).2.1 .nil rfl rfl

/-- C10: when the parsed response body is a dict without a `token` entry,
`authenticate` fails before the session header update statement runs, so the
client state after the call is exactly the state before it. -/
theorem C10_state_unchanged (st : ClientState) (oracle : Oracle)
    (username password application : List Nat) (application_url : Option (List Nat))
    (scopes : List (List Nat)) (kvs : JMembers)
    (hbody : jsonLoads (oracle (Binstar.authReq st username password application application_url scopes)).body
      = some (.obj kvs))
    (hno : jmGet kvs (strC "token") = none) :
    Binstar.authenticate st oracle username password application application_url scopes
      = ((.error (.keyError (strC "token")), st),
         [Binstar.authReq st username password application application_url scopes]) := by
  have hidx : pyIndex (.obj kvs) (strC "token") = .error (.keyError (strC "token")) := by
    unfold pyIndex
    simp only []
    rw [hno]
  exact (authenticate_cases st oracle username password application application_url scopes).2.1
    (.obj kvs) _ hbody hidx

/-- C10 (witness): the failed call leaves the pre-call state (here a session
already holding a token header) in place. -/
theorem C10_witness :
    Binstar.authenticate (Binstar.init (some (strC "OLD")) (strC "d"))
      (constOracle 200 (dumps (jobj []))) (strC "u") (strC "pw") (strC "app") none [strC "package"]
      = ((.error (.keyError (strC "token")), Binstar.init (some (strC "OLD")) (strC "d")),
         [Binstar.authReq (Binstar.init (some (strC "OLD")) (strC "d")) (strC "u") (strC "pw")
           (strC "app") none [strC "package"]]) :=
  C10_state_unchanged (Binstar.init (some (strC "OLD")) (strC "d")) (constOracle 200 (dumps (jobj [])))
    (strC "u") (strC "pw") (strC "app") none [strC "package"] .nil rfl rfl

/-! ### Claims C1 and C2: the staged upload -/

/-- C1: when the stage POST answers 200 with a body yielding `s3_url`,
`s3form_data` and `dist_id`, the transfer POST answers 201 and the commit
POST answers 200, `upload` returns exactly the commit response's JSON, the
requests are stage, transfer and commit in that order, and the transfer
request carries the staged form fields verbatim plus the single extra `file`
field holding `(basename, content)`. -/
theorem C1_upload_success (st : ClientState) (oracle : Oracle)
    (login package_name release basename fd : List Nat) (description : Json) (attrs : JMembers)
    (stageObj : Json) (u : List Nat) (s3data distId commitJson : Json)
    (hstatus1 : (oracle (Binstar.stageReq st login package_name release basename description attrs)).status = 200)
    (hbody1 : jsonLoads (oracle (Binstar.stageReq st login package_name release basename description attrs)).body
      = some stageObj)
    (hurl : pyIndex stageObj (strC "s3_url") = .ok (.str u))
    (hform : pyIndex stageObj (strC "s3form_data") = .ok s3data)
    (hdist : pyIndex stageObj (strC "dist_id") = .ok distId)
    (hstatus2 : (oracle (Binstar.s3Req u s3data basename fd)).status = 201)
    (hstatus3 : (oracle (Binstar.commitReq st login package_name release basename distId)).status = 200)
    (hbody3 : jsonLoads (oracle (Binstar.commitReq st login package_name release basename distId)).body
      = some commitJson) :
    Binstar.upload st oracle login package_name release basename fd description attrs
      = (.ok commitJson,
         [Binstar.stageReq st login package_name release basename description attrs,
          Binstar.s3Req u s3data basename fd,
          Binstar.commitReq st login package_name release basename distId])
    ∧ (Binstar.s3Req u s3data basename fd).data = .form s3data
    ∧ (Binstar.s3Req u s3data basename fd).files = [(strC "file", (basename, fd))] := by
  refine ⟨?_, rfl, rfl⟩
  simp only [Binstar.upload]
  rw [check_response_ok _ [200] (by rw [hstatus1]; decide)]
  simp only []
  rw [hbody1]
  simp only []
  rw [hurl]
  simp only []
  rw [hform]
  simp only []
  rw [if_neg (by rw [hstatus2]; omega)]
  rw [hdist]
  simp only []
  rw [check_response_ok _ [200] (by rw [hstatus3]; decide)]
  simp only []
  rw [hbody3]

/-- C1 (witness): the happy path evaluated in a concrete environment. -/
theorem C1_witness :
    Binstar.upload (Binstar.init none (strC "d")) uploadOkOracle
      (strC "l") (strC "p") (strC "r") (strC "b") (strC "F") (.str []) .nil
      = (.ok (jobj [(strC "done", Json.bool true)]),
         [Binstar.stageReq (Binstar.init none (strC "d")) (strC "l") (strC "p") (strC "r") (strC "b") (.str []) .nil,
          Binstar.s3Req (strC "u") (jobj [(strC "key", Json.str (strC "K"))]) (strC "b") (strC "F"),
          Binstar.commitReq (Binstar.init none (strC "d")) (strC "l") (strC "p") (strC "r") (strC "b") (Json.num 7)])
    ∧ (Binstar.s3Req (strC "u") (jobj [(strC "key", Json.str (strC "K"))]) (strC "b") (strC "F")).data
        = .form (jobj [(strC "key", Json.str (strC "K"))])
    ∧ (Binstar.s3Req (strC "u") (jobj [(strC "key", Json.str (strC "K"))]) (strC "b") (strC "F")).files
        = [(strC "file", (strC "b", strC "F"))] :=
  C1_upload_success (Binstar.init none (strC "d")) uploadOkOracle
    (strC "l") (strC "p") (strC "r") (strC "b") (strC "F") (.str []) .nil
    (jobj [(strC "s3_url", Json.str (strC "u")),
      (strC "s3form_data", jobj [(strC "key", Json.str (strC "K"))]), (strC "dist_id", Json.num 7)])
    (strC "u") (jobj [(strC "key", Json.str (strC "K"))]) (Json.num 7)
    (jobj [(strC "done", Json.bool true)])
    rfl rfl rfl rfl rfl rfl rfl rfl

/-- C2: when staging succeeds but the object-store transfer answers any
status other than 201, `upload` raises `BinstarError('Error uploading to
s3', status)` and only the stage and transfer requests are ever issued — the
commit request is never sent. -/
theorem C2_upload_s3_failure (st : ClientState) (oracle : Oracle)
    (login package_name release basename fd : List Nat) (description : Json) (attrs : JMembers)
    (stageObj : Json) (u : List Nat) (s3data : Json) (s : Nat)
    (hstatus1 : (oracle (Binstar.stageReq st login package_name release basename description attrs)).status = 200)
    (hbody1 : jsonLoads (oracle (Binstar.stageReq st login package_name release basename description attrs)).body
      = some stageObj)
    (hurl : pyIndex stageObj (strC "s3_url") = .ok (.str u))
    (hform : pyIndex stageObj (strC "s3form_data") = .ok s3data)
    (hstatus2 : (oracle (Binstar.s3Req u s3data basename fd)).status = s)
    (hs : s ≠ 201) :
    Binstar.upload st oracle login package_name release basename fd description attrs
      = (.error (.binstarError (.str (strC "Error uploading to s3")) s),
         [Binstar.stageReq st login package_name release basename description attrs,
          Binstar.s3Req u s3data basename fd]) := by
  simp only [Binstar.upload]
  rw [check_response_ok _ [200] (by rw [hstatus1]; decide)]
  simp only []
  rw [hbody1]
  simp only []
  rw [hurl]
  simp only []
  rw [hform]
  simp only []
  rw [if_pos (by rw [hstatus2]; exact hs), hstatus2]

/-- C2 (witness): a 403 from the object store evaluated concretely — the
trace holds exactly the stage and transfer requests. -/
theorem C2_witness :
    Binstar.upload (Binstar.init none (strC "d")) uploadFailOracle
      (strC "l") (strC "p") (strC "r") (strC "b") (strC "F") (.str []) .nil
      = (.error (.binstarError (.str (strC "Error uploading to s3")) 403),
         [Binstar.stageReq (Binstar.init none (strC "d")) (strC "l") (strC "p") (strC "r") (strC "b") (.str []) .nil,
          Binstar.s3Req (strC "u") (jobj [(strC "key", Json.str (strC "K"))]) (strC "b") (strC "F")]) :=
  C2_upload_s3_failure (Binstar.init none (strC "d")) uploadFailOracle
    (strC "l") (strC "p") (strC "r") (strC "b") (strC "F") (.str []) .nil
    (jobj [(strC "s3_url", Json.str (strC "u")),
      (strC "s3form_data", jobj [(strC "key", Json.str (strC "K"))]), (strC "dist_id", Json.num 7)])
    (strC "u") (jobj [(strC "key", Json.str (strC "K"))]) 403
    rfl rfl rfl rfl rfl (by omega)

/-! ### Claims C5 and C9: add_package -/

/-- C5 (counterexample): the claim says the decoded payload carries the
attrs entry `x` (and `summary`, `license`) at the *top level*, merged with
`package_type`/`public`/`host_publicly`.  But the code nests the merged
attrs dict under the `public_attrs` key: the decoded payload has no
top-level `x`, and all the merged entries sit under `public_attrs`. -/
theorem C5_counterexample :
    jdecode (jencode (Binstar.add_package_payload (.str (strC "pypi")) (.str (strC "s"))
        (.str (strC "L")) (.str (strC "u")) (.bool true) (some (jobjOf [(strC "x", Json.num 1)])) .null))
      = some (Binstar.add_package_payload (.str (strC "pypi")) (.str (strC "s"))
        (.str (strC "L")) (.str (strC "u")) (.bool true) (some (jobjOf [(strC "x", Json.num 1)])) .null)
    ∧ pyIndex (Binstar.add_package_payload (.str (strC "pypi")) (.str (strC "s"))
        (.str (strC "L")) (.str (strC "u")) (.bool true) (some (jobjOf [(strC "x", Json.num 1)])) .null)
        (strC "x")
      = .error (.keyError (strC "x"))
    ∧ pyIndex (Binstar.add_package_payload (.str (strC "pypi")) (.str (strC "s"))
        (.str (strC "L")) (.str (strC "u")) (.bool true) (some (jobjOf [(strC "x", Json.num 1)])) .null)
        (strC "public_attrs")
      = .ok (jobj [(strC "x", Json.num 1), (strC "summary", Json.str (strC "s")),
          (strC "license", jobj [(strC "name", Json.str (strC "L")), (strC "url", Json.str (strC "u"))])]) :=
  ⟨rfl, rfl, rfl⟩

/-- C5 (amended): `add_package` POSTs the base64 JSON encoding of a payload
whose top level holds `package_type`, `public`, `public_attrs` and
`host_publicly`; the attrs dict merged with the derived `summary` and
`license: {name, url}` entries is nested under `public_attrs`, not spliced
into the top level.  Decoding the request body recovers exactly that
payload. -/
theorem C5_add_package (st : ClientState) (oracle : Oracle) (login package_name : List Nat)
    (package_type summary license license_url public : Json)
    (attrs : Option JMembers) (host_publicly : Json)
    (hwf : jsonWF (Binstar.add_package_payload package_type summary license license_url public
      attrs host_publicly) = true) :
    (Binstar.add_package st oracle login package_name package_type summary license license_url
        public attrs host_publicly).2
      = [Binstar.sessionPostReq st (st.domain ++ strC "/package/" ++ login ++ strC "/" ++ package_name)
          (jencode (Binstar.add_package_payload package_type summary license license_url public
            attrs host_publicly))]
    ∧ jdecode (jencode (Binstar.add_package_payload package_type summary license license_url public
        attrs host_publicly))
      = some (Binstar.add_package_payload package_type summary license license_url public
          attrs host_publicly)
    ∧ Binstar.add_package_payload package_type summary license license_url public attrs host_publicly
      = jobj [(strC "package_type", package_type),
              (strC "public", public),
              (strC "public_attrs", .obj (jmSet (jmSet (Binstar.attrsOrEmpty attrs) (strC "summary") summary)
                (strC "license") (jobj [(strC "name", license), (strC "url", license_url)]))),
              (strC "host_publicly", host_publicly)] :=
  ⟨rfl, jdecode_jencode _ hwf, rfl⟩

/-- C5 (witness): the amended statement evaluated on the claim's inputs. -/
theorem C5_witness :
    jsonWF (Binstar.add_package_payload (.str (strC "pypi")) (.str (strC "s")) (.str (strC "L"))
      (.str (strC "u")) (.bool true) (some (jobjOf [(strC "x", Json.num 1)])) .null) = true
    ∧ jdecode (jencode (Binstar.add_package_payload (.str (strC "pypi")) (.str (strC "s"))
        (.str (strC "L")) (.str (strC "u")) (.bool true) (some (jobjOf [(strC "x", Json.num 1)])) .null))
      = some (Binstar.add_package_payload (.str (strC "pypi")) (.str (strC "s")) (.str (strC "L"))
        (.str (strC "u")) (.bool true) (some (jobjOf [(strC "x", Json.num 1)])) .null) :=
  ⟨rfl,
   (C5_add_package (Binstar.init none (strC "d")) (constOracle 200 (dumps (jobj [])))
     (strC "l") (strC "p") (.str (strC "pypi")) (.str (strC "s")) (.str (strC "L"))
     (.str (strC "u")) (.bool true) (some (jobjOf [(strC "x", Json.num 1)])) .null rfl).2.1⟩

/-- C9 (counterexample): the claim says every caller-supplied attrs mapping
is mutated in place.  But `attrs = attrs or {}` rebinds the local name to a
fresh dict when the caller's dict is empty (falsy), so an empty caller dict
is left untouched — afterwards it still has no `summary` key. -/
theorem C9_counterexample :
    Binstar.add_package_callerAttrs (some .nil) (.str (strC "s")) (.str (strC "L")) (.str (strC "u"))
      = some .nil
    ∧ jmGet .nil (strC "summary") = none :=
  ⟨rfl, rfl⟩

/-- C9 (amended): a *non-empty* caller-supplied attrs dict is mutated in
place: after the call it holds a `summary` entry set to the summary argument
and a `license` entry set to `{name, url}`; an empty dict (or an absent one)
is replaced by a fresh local dict and the caller sees no change. -/
theorem C9_caller_attrs (k : List Nat) (v : Json) (tl : JMembers) (s l u : Json) :
    ∃ d, Binstar.add_package_callerAttrs (some (.cons k v tl)) s l u = some d
      ∧ jmGet d (strC "summary") = some s
      ∧ jmGet d (strC "license") = some (jobj [(strC "name", l), (strC "url", u)]) := by
  refine ⟨jmSet (jmSet (.cons k v tl) (strC "summary") s) (strC "license")
    (jobj [(strC "name", l), (strC "url", u)]), rfl, ?_, ?_⟩
  · rw [jmGet_jmSet_other _ _ _ _ (by decide), jmGet_jmSet_same]
  · rw [jmGet_jmSet_same]

/-! ### Claim C7: the bearer header invariant -/

/-- The download request's headers answer `Authorization` exactly as the
session's headers do (the only extra header is `ETag`). -/
theorem downloadReq_auth (st : ClientState) (l n r b : List Nat) (m : Option (List Nat)) :
    getKey (Binstar.downloadReq st l n r b m).headers (strC "Authorization")
      = getKey st.sessionHeaders (strC "Authorization") := by
  cases m with
  | none => rfl
  | some mm =>
    show getKey (setKey st.sessionHeaders (strC "ETag") mm) (strC "Authorization") = _
    exact getKey_setKey_other st.sessionHeaders (strC "Authorization") (strC "ETag") mm (by decide)

/-- One non-`authenticate` operation leaves the client state unchanged, and
every session request it issues answers `Authorization` exactly as the
session's headers do. -/
theorem step_preserves (st : ClientState) (oracle : Oracle) (op : Binstar.Op)
    (hop : op.isAuthenticate = false) :
    (Binstar.step st oracle op).1 = st ∧
    ∀ r ∈ (Binstar.step st oracle op).2, r.viaSession = true →
      getKey r.headers (strC "Authorization") = getKey st.sessionHeaders (strC "Authorization") := by
  cases op with
  | user l =>
    refine ⟨rfl, ?_⟩
    intro r hr _
    cases l with
    | none =>
      simp only [Binstar.step, Binstar.user, List.mem_singleton] at hr
      subst hr
      rfl
    | some x =>
      simp only [Binstar.step, Binstar.user, List.mem_singleton] at hr
      subst hr
      rfl
  | user_packages l =>
    refine ⟨rfl, ?_⟩
    intro r hr _
    cases l with
    | none =>
      simp only [Binstar.step, Binstar.user_packages, List.mem_singleton] at hr
      subst hr
      rfl
    | some x =>
      simp only [Binstar.step, Binstar.user_packages, List.mem_singleton] at hr
      subst hr
      rfl
  | package l n =>
    refine ⟨rfl, ?_⟩
    intro r hr _
    simp only [Binstar.step, Binstar.package, List.mem_singleton] at hr
    subst hr
    rfl
  | all_packages m =>
    refine ⟨rfl, ?_⟩
    intro r hr _
    simp only [Binstar.step, Binstar.all_packages, List.mem_singleton] at hr
    subst hr
    rfl
  | add_package l n pt s lic licu pub a hp =>
    refine ⟨rfl, ?_⟩
    intro r hr _
    simp only [Binstar.step, Binstar.add_package, List.mem_singleton] at hr
    subst hr
    rfl
  | release l n v =>
    refine ⟨rfl, ?_⟩
    intro r hr _
    simp only [Binstar.step, Binstar.release, List.mem_singleton] at hr
    subst hr
    rfl
  | add_release l n v req an d =>
    refine ⟨rfl, ?_⟩
    intro r hr _
    simp only [Binstar.step, Binstar.add_release, List.mem_singleton] at hr
    subst hr
    rfl
  | download l n rel b m =>
    refine ⟨rfl, ?_⟩
    intro r hr hses
    have h : r = Binstar.downloadReq st l n rel b m ∨ r.viaSession = false := by
      simp only [Binstar.step, Binstar.download] at hr
      split at hr
      · simp at hr
        exact Or.inl hr
      · split at hr
        · simp at hr
          exact Or.inl hr
        · split at hr
          · split at hr
            · simp at hr
              exact Or.inl hr
            · simp at hr
              rcases hr with h | h
              · exact Or.inl h
              · subst h
                exact Or.inr rfl
          · simp at hr
            exact Or.inl hr
    rcases h with h | h
    · subst h
      exact downloadReq_auth st l n rel b m
    · rw [hses] at h
      cases h
  | upload l n rel b fd d a =>
    refine ⟨rfl, ?_⟩
    intro r hr hses
    have h : r = Binstar.stageReq st l n rel b d a ∨ r.viaSession = false ∨
        ∃ distId, r = Binstar.commitReq st l n rel b distId := by
      simp only [Binstar.step, Binstar.upload] at hr
      split at hr
      · simp at hr
        exact Or.inl hr
      · split at hr
        · simp at hr
          exact Or.inl hr
        · split at hr
          · simp at hr
            exact Or.inl hr
          · split at hr
            · simp at hr
              exact Or.inl hr
            · split at hr
              · split at hr
                · simp at hr
                  rcases hr with h | h
                  · exact Or.inl h
                  · subst h
                    exact Or.inr (Or.inl rfl)
                · split at hr
                  · simp at hr
                    rcases hr with h | h
                    · exact Or.inl h
                    · subst h
                      exact Or.inr (Or.inl rfl)
                  · split at hr
                    · simp at hr
                      rcases hr with h | h | h
                      · exact Or.inl h
                      · subst h
                        exact Or.inr (Or.inl rfl)
                      · exact Or.inr (Or.inr ⟨_, h⟩)
                    · split at hr
                      · simp at hr
                        rcases hr with h | h | h
                        · exact Or.inl h
                        · subst h
                          exact Or.inr (Or.inl rfl)
                        · exact Or.inr (Or.inr ⟨_, h⟩)
                      · simp at hr
                        rcases hr with h | h | h
                        · exact Or.inl h
                        · subst h
                          exact Or.inr (Or.inl rfl)
                        · exact Or.inr (Or.inr ⟨_, h⟩)
              · simp at hr
                exact Or.inl hr
    rcases h with h | h | ⟨distId, h⟩
    · subst h
      rfl
    · rw [hses] at h
      cases h
    · subst h
      rfl
  | authenticate u p a au sc => simp [Binstar.Op.isAuthenticate] at hop

/-- A sequence of non-`authenticate` operations leaves the client state
unchanged, and every session request issued along it answers
`Authorization` as the initial session headers do. -/
theorem run_preserves (oracle : Oracle) : ∀ (ops : List Binstar.Op) (st : ClientState),
    (∀ op ∈ ops, op.isAuthenticate = false) →
    (Binstar.run st oracle ops).1 = st ∧
    ∀ r ∈ (Binstar.run st oracle ops).2, r.viaSession = true →
      getKey r.headers (strC "Authorization") = getKey st.sessionHeaders (strC "Authorization") := by
  intro ops
  induction ops with
  | nil =>
    intro st _
    refine ⟨rfl, ?_⟩
    intro r hr
    simp [Binstar.run] at hr
  | cons op ops ih =>
    intro st hops
    have h1 := step_preserves st oracle op (hops op (by simp))
    have h2 := ih (Binstar.step st oracle op).1 (fun o ho => hops o (by simp [ho]))
    have hrun : Binstar.run st oracle (op :: ops)
        = ((Binstar.run (Binstar.step st oracle op).1 oracle ops).1,
           (Binstar.step st oracle op).2 ++ (Binstar.run (Binstar.step st oracle op).1 oracle ops).2) := by
      rw [Binstar.run]
    constructor
    · rw [hrun]
      show (Binstar.run (Binstar.step st oracle op).1 oracle ops).1 = st
      rw [h2.1, h1.1]
    · intro r hr hses
      rw [hrun] at hr
      have hr2 : r ∈ (Binstar.step st oracle op).2
          ++ (Binstar.run (Binstar.step st oracle op).1 oracle ops).2 := hr
      rw [List.mem_append] at hr2
      rcases hr2 with h | h
      · exact h1.2 r h hses
      · have h3 := h2.2 r h hses
        rw [h3, h1.1]

/-- C7: after `authenticate` succeeds on a 200 response whose body yields
the token string `T`, every session request issued by any following sequence
of non-`authenticate` operations carries `Authorization: token T` — the
session headers are mutated only by `authenticate` (and at construction), so
the header persists until the next `authenticate`. -/
theorem C7_token_header (st : ClientState) (oracle : Oracle)
    (username password application : List Nat) (application_url : Option (List Nat))
    (scopes : List (List Nat)) (T : List Nat) (body : Json) (ops : List Binstar.Op)
    (hstatus : (oracle (Binstar.authReq st username password application application_url scopes)).status = 200)
    (hbody : jsonLoads (oracle (Binstar.authReq st username password application application_url scopes)).body
      = some body)
    (htok : pyIndex body (strC "token") = .ok (.str T))
    (hops : ∀ op ∈ ops, op.isAuthenticate = false) :
    ∀ r ∈ (Binstar.run
        (Binstar.authenticate st oracle username password application application_url scopes).1.2
        oracle ops).2,
      r.viaSession = true →
      getKey r.headers (strC "Authorization") = some (strC "token " ++ T) := by
  intro r hr hses
  have hauth := (authenticate_cases st oracle username password application application_url scopes).2.2
    body (.str T) hbody htok
  have hst : (Binstar.authenticate st oracle username password application application_url scopes).1.2
      = ⟨st.domain, st.token, setKey st.sessionHeaders (strC "Authorization") (strC "token " ++ T)⟩ := by
    rw [hauth]
    rfl
  rw [hst] at hr
  have hrp := (run_preserves oracle ops
    ⟨st.domain, st.token, setKey st.sessionHeaders (strC "Authorization") (strC "token " ++ T)⟩
    hops).2 r hr hses
  rw [hrp]
  exact getKey_setKey_same st.sessionHeaders (strC "Authorization") (strC "token " ++ T)

/-- C7 (witness): after a concrete successful `authenticate`, the session
GET issued by a following `user` call carries `Authorization: token T`. -/
theorem C7_witness :
    getKey (Binstar.sessionGetReq
        ((Binstar.authenticate (Binstar.init none (strC "d"))
            (constOracle 200 (dumps (jobj [(strC "token", Json.str (strC "T"))])))
            (strC "u") (strC "pw") (strC "app") none [strC "package"]).1.2)
        (strC "d" ++ strC "/user") [] true).headers (strC "Authorization")
      = some (strC "token " ++ strC "T") := by
  refine C7_token_header (Binstar.init none (strC "d"))
    (constOracle 200 (dumps (jobj [(strC "token", Json.str (strC "T"))])))
    (strC "u") (strC "pw") (strC "app") none [strC "package"] (strC "T")
    (jobj [(strC "token", Json.str (strC "T"))]) [Binstar.Op.user none]
    rfl rfl rfl ?_ _ ?_ rfl
  · intro op hop
    simp at hop
    subst hop
    rfl
  · exact List.Mem.head _
